import Mathlib

/-!
Verification of the multi-agent interview system (`src/` of
sadjava/multiagent-interview-system) against its natural-language
specification.

The Python code is shallowly embedded: every agent node
(`router_node`, `skeptic_node`, `empath_node`, `planner_node` with its
three modes, `voice_node`, `reporter_node`) becomes a pure Lean function
from the session state and an explicit Judgment-Provider result to the
updated session state.  The LLM call of each node is modelled as an
explicit argument of type `Except String R`, where `R` is the Pydantic
structured-output schema of that node (`Except.error e` models the
Python exception path with message `e`).  Python dicts with optional
keys are modelled with `Option` fields; `dict.get(k, d)` becomes
`Option.getD`.  The LangGraph workflow (`build_interview_graph`,
`route_from_router`, `route_from_planner`) and the orchestrator class
(`InterviewCoach.start_interview` / `process_message` /
`export_session` in `graph.py`) are embedded as the functions
`graph_invoke`, `start_interview`, `process_message`, `export_session`.
-/

namespace Interview

/-! ### Structured-output schemas (Pydantic models from `src/state.py`) -/

/-- `RouterOutput` (state.py): structured output of the Router agent. -/
structure RouterOutput where
  intent : String            -- Literal "answer" | "question" | "off_topic" | "stop"
  internal_thought : String
  is_suspicious : Bool := false
deriving Repr, DecidableEq

/-- `SkepticOutput` (state.py): structured output of the Skeptic agent.
`score` is constrained to 0..10 by the Pydantic schema (`ge=0, le=10`). -/
structure SkepticOutput where
  score : Nat
  accuracy : String          -- "точный" | "частично_верный" | "неверный" | "галлюцинация"
  depth : String             -- "поверхностный" | "достаточный" | "глубокий" | "экспертный"
  internal_thought : String
  issues : Option (List String) := none
  correct_answer : Option String := none
  contradiction_detected : Bool := false
  fictional_term_detected : Bool := false
deriving Repr, DecidableEq

/-- `EmpathOutput` (state.py): structured output of the Empath agent. -/
structure EmpathOutput where
  demeanor : String
  clarity : Nat
  honesty : Nat
  engagement : String
  stress_level : String
  internal_thought : String
  recommended_protocol : String := "standard"
deriving Repr, DecidableEq

/-- `PlannerOutput` (state.py): structured output of the Planner agent. -/
structure PlannerOutput where
  topic_score : Option Nat := none
  next_action : String       -- "continue" | "next_topic" | ... | "finish"
  difficulty_change : String := "keep"
  new_protocol : String := "standard"
  directive : String
  internal_thought : String
deriving Repr, DecidableEq

/-- `QuickPlannerOutput` (planner.py): fast-path planner output. -/
structure QuickPlannerOutput where
  directive : String
  internal_thought : String
deriving Repr, DecidableEq

/-- `VoiceOutput` (state.py): structured output of the Voice agent. -/
structure VoiceOutput where
  message : String
  internal_thought : String
deriving Repr, DecidableEq

/-- `ReporterOutput` (state.py): structured output of the Reporter agent. -/
structure ReporterOutput where
  assessed_grade : String
  hiring_recommendation : String   -- "Strong Hire" | "Hire" | "No Hire"
  confidence_score : Nat
  verdict_reasoning : String
  clarity_score : Nat
  honesty_score : Nat
  engagement_score : Nat
  soft_skills_notes : String
  roadmap : List String
  resources : List String
  internal_thought : String
deriving Repr, DecidableEq

/-- `PlanTopic` (planner.py): one element of the generated interview plan. -/
structure PlanTopic where
  topic : String
  difficulty : String
  rationale : String
deriving Repr, DecidableEq

/-- `InterviewPlanOutput` (planner.py): structured output for plan generation. -/
structure InterviewPlanOutput where
  topics : List PlanTopic
  internal_thought : String
deriving Repr, DecidableEq

/-! ### Session-state data model (`src/state.py`) -/

/-- `InterviewTopic` dict as built by `create_interview_plan` (planner.py).
The dict keys `questions_asked` is absent until `full_plan` first
increments it, hence `Option Nat` (all reads in the source use
`.get("questions_asked", 0)`). -/
structure InterviewTopic where
  id : Nat
  topic : String
  difficulty : String
  rationale : String
  status : String            -- "pending" | "in_progress" | "completed" | "skipped"
  score : Option Nat
  feedback : String
  correct_answer : Option String
  weak_answers : Nat
  questions_asked : Option Nat
deriving Repr, DecidableEq

/-- `CandidateMetadata` (state.py). -/
structure CandidateMetadata where
  name : String
  role : String
  target_grade : String
  experience : String
deriving Repr, DecidableEq

/-- `BehavioralContext` (state.py).  The key `contradiction_count` is
never written anywhere in the source; reporter.py reads it with
`.get("contradiction_count", 0)`.  It is modelled as an `Option Nat`
that is `none` whenever the key is absent. -/
structure BehavioralContext where
  demeanor : String
  protocol : String
  stress_level : String
  hallucination_count : Nat
  off_topic_count : Nat
  contradiction_count : Option Nat
deriving Repr, DecidableEq

/-- `Message` (state.py): one entry of the message history. -/
structure Message where
  role : String
  content : String
deriving Repr, DecidableEq

/-- `TurnLog` (state.py): one record of the per-turn JSON log. -/
structure TurnLog where
  turn_id : Nat
  agent_visible_message : String
  user_message : String
  internal_thoughts : String
deriving Repr, DecidableEq

/-- `SkillAssessment` (state.py). -/
structure SkillAssessment where
  topic : String
  score : Nat
  confirmed : Bool
  feedback : String
  correct_answer : Option String
deriving Repr, DecidableEq

/-- `SoftSkillsAssessment` (state.py). -/
structure SoftSkillsAssessment where
  clarity : Nat
  honesty : Nat
  engagement : Nat
  notes : String
deriving Repr, DecidableEq

/-- `FinalFeedback` (state.py). -/
structure FinalFeedback where
  assessed_grade : String
  hiring_recommendation : String
  confidence_score : Nat
  confirmed_skills : List SkillAssessment
  knowledge_gaps : List SkillAssessment
  soft_skills : SoftSkillsAssessment
  roadmap : List String
  resources : List String
deriving Repr, DecidableEq

/-- `InterviewState` (state.py), together with the auxiliary
underscore-prefixed scratch keys that the agent nodes write into the
LangGraph state dict (`_skeptic_score`, `_skeptic_accuracy`,
`_skeptic_depth`, `_skeptic_correct_answer`, `_skeptic_issues`,
`_contradiction_detected`, `_fictional_term_detected`,
`_empath_clarity`, `_empath_honesty`, `_empath_engagement`,
`_move_to_next_topic`, `reporter_thought`).  The leading underscore is
dropped because Lean field names cannot start with `_`; each field is
`Option`-valued when the corresponding dict key can be absent. -/
structure InterviewState where
  metadata : CandidateMetadata
  interview_plan : List InterviewTopic
  current_topic_index : Nat
  behavioral_context : BehavioralContext
  messages : List Message
  internal_debate : String
  turns_log : List TurnLog
  turn_id : Nat
  current_user_message : String
  user_intent : String
  skeptic_analysis : String
  empath_analysis : String
  planner_directive : String
  router_thought : String
  skeptic_thought : String
  empath_thought : String
  planner_thought : String
  voice_thought : String
  next_step : String
  should_end : Bool
  hallucination_detected : Bool
  current_response : String
  final_feedback : Option FinalFeedback
  final_report_string : String
  -- scratch keys (absent at session creation, hence Option / default)
  skeptic_score : Option Nat
  skeptic_accuracy : Option String
  skeptic_depth : Option String
  skeptic_correct_answer : Option String
  skeptic_issues : Option (List String)
  contradiction_detected : Bool
  fictional_term_detected : Bool
  empath_clarity : Option Nat
  empath_honesty : Option Nat
  empath_engagement : Option String
  move_to_next_topic : Bool
  reporter_thought : String
deriving Repr, DecidableEq

/-- `create_initial_state` (state.py). -/
def create_initial_state (name role grade experience : String) : InterviewState :=
  { metadata := { name := name, role := role, target_grade := grade, experience := experience }
    interview_plan := []
    current_topic_index := 0
    behavioral_context :=
      { demeanor := "normal", protocol := "standard", stress_level := "low",
        hallucination_count := 0, off_topic_count := 0, contradiction_count := none }
    messages := []
    internal_debate := ""
    turns_log := []
    turn_id := 0
    current_user_message := ""
    user_intent := "answer"
    skeptic_analysis := ""
    empath_analysis := ""
    planner_directive := ""
    router_thought := ""
    skeptic_thought := ""
    empath_thought := ""
    planner_thought := ""
    voice_thought := ""
    next_step := "router"
    should_end := false
    hallucination_detected := false
    current_response := ""
    final_feedback := none
    final_report_string := ""
    skeptic_score := none
    skeptic_accuracy := none
    skeptic_depth := none
    skeptic_correct_answer := none
    skeptic_issues := none
    contradiction_detected := false
    fictional_term_detected := false
    empath_clarity := none
    empath_honesty := none
    empath_engagement := none
    move_to_next_topic := false
    reporter_thought := "" }

/-! ### String helpers mirroring the Python built-ins used by the source -/

/-- Python `str.lower()` restricted to the alphabets that occur in this
code base: ASCII letters plus the Russian Cyrillic block А..Я and Ё. -/
def pyCharToLower (c : Char) : Char :=
  if 0x410 ≤ c.toNat ∧ c.toNat ≤ 0x42F then Char.ofNat (c.toNat + 0x20)
  else if c.toNat = 0x401 then Char.ofNat 0x451
  else c.toLower

/-- Python `str.lower()` (see `pyCharToLower`). -/
def pyToLower (s : String) : String := String.mk (s.data.map pyCharToLower)

/-- `pat` occurs at the start of the character list. -/
def prefixMatch : List Char → List Char → Bool
  | [], _ => true
  | _ :: _, [] => false
  | c :: cs, d :: ds => c == d && prefixMatch cs ds

/-- `pat` occurs somewhere in the character list. -/
def containsSubList (pat : List Char) : List Char → Bool
  | [] => prefixMatch pat []
  | c :: cs => prefixMatch pat (c :: cs) || containsSubList pat cs

/-- Python `pat in hay` substring test. -/
def containsSub (hay pat : String) : Bool := containsSubList pat.data hay.data

/-- `"; ".join` and friends: Python `sep.join(xs)`. -/
def joinSep (sep : String) (xs : List String) : String := String.intercalate sep xs

/-! ### Intent Classifier (`src/agents/router.py`, `router_node`) -/

/-- `router_node` (router.py).  The provider call is the explicit
argument `judgment`; `Except.error e` models the exception path. -/
def router_node (s : InterviewState) (judgment : Except String RouterOutput) :
    InterviewState :=
  if s.turn_id = 0 ∨ s.current_user_message = "" then
    { s with user_intent := "answer", next_step := "quick_respond",
             router_thought := "Первый ход — генерируем приветствие и первый вопрос." }
  else
    match judgment with
    | Except.ok r =>
        let ns := if r.intent = "answer" then "analyze"
                  else if r.intent = "stop" then "end"
                  else "quick_respond"
        { s with user_intent := r.intent, next_step := ns,
                 router_thought := r.internal_thought }
    | Except.error e =>
        { s with user_intent := "answer", next_step := "analyze",
                 router_thought := "Ошибка классификации: " ++ e.take 50 ++ ", fallback на answer" }

/-! ### Technical Evaluator (`src/agents/skeptic.py`, `skeptic_node`) -/

/-- The composite `full_thought` string built by `skeptic_node`. -/
def skepticFullThought (r : SkepticOutput) : String :=
  let issues_list := r.issues.getD []
  let parts0 := [r.internal_thought]
  let parts1 := if issues_list ≠ [] then
      parts0 ++ ["Проблемы: " ++ joinSep "; " (issues_list.take 3)] else parts0
  let parts2 := if r.accuracy = "галлюцинация" then parts1 ++ ["ГАЛЛЮЦИНАЦИЯ!"] else parts1
  let parts3 := if r.contradiction_detected then parts2 ++ ["ПРОТИВОРЕЧИЕ!"] else parts2
  let parts4 := if r.fictional_term_detected then parts3 ++ ["ВЫМЫШЛЕННЫЙ ТЕРМИН!"] else parts3
  "[" ++ toString r.score ++ "/10] " ++ joinSep " | " parts4

/-- `skeptic_node` (skeptic.py).  Skip path when the intent is not
`answer`; on success it forwards the provider score unmodified and
computes `hallucination_detected`; on provider error it records a
diagnostic and sets `hallucination_detected := false`. -/
def skeptic_node (s : InterviewState) (judgment : Except String SkepticOutput) :
    InterviewState :=
  if s.user_intent ≠ "answer" then
    { s with
        skeptic_analysis := "[Skeptic]: Пропуск (интент: " ++ s.user_intent ++ ")",
        skeptic_thought := "Интент \x27" ++ s.user_intent ++ "\x27 — не технический ответ." }
  else
    match judgment with
    | Except.ok r =>
        let full_thought := skepticFullThought r
        let hallucination := r.accuracy = "галлюцинация" ∨ r.fictional_term_detected = true
        { s with
            skeptic_analysis := "[Skeptic]: " ++ full_thought,
            skeptic_thought := full_thought,
            hallucination_detected := hallucination,
            skeptic_score := some r.score,
            skeptic_accuracy := some r.accuracy,
            skeptic_depth := some r.depth,
            skeptic_correct_answer := r.correct_answer,
            skeptic_issues := some (r.issues.getD []),
            contradiction_detected := r.contradiction_detected,
            fictional_term_detected := r.fictional_term_detected }
    | Except.error e =>
        { s with
            skeptic_analysis := "[Skeptic]: Ошибка анализа: " ++ e,
            skeptic_thought := "Ошибка анализа: " ++ e,
            hallucination_detected := false }

/-! ### Behavioral Evaluator (`src/agents/empath.py`, `empath_node`) -/

/-- `empath_node` (empath.py). -/
def empath_node (s : InterviewState) (judgment : Except String EmpathOutput) :
    InterviewState :=
  match judgment with
  | Except.ok r =>
      let bc0 := s.behavioral_context
      let bc1 := { bc0 with demeanor := r.demeanor, stress_level := r.stress_level }
      let bc2 := if r.recommended_protocol ≠ "standard" then
          { bc1 with protocol := r.recommended_protocol } else bc1
      { s with
          empath_analysis := "[Empath]: " ++ r.internal_thought ++ " (Ясность: " ++
            toString r.clarity ++ "/10, Честность: " ++ toString r.honesty ++
            "/10, Вовлечённость: " ++ r.engagement ++ ")",
          empath_thought := r.internal_thought,
          behavioral_context := bc2,
          empath_clarity := some r.clarity,
          empath_honesty := some r.honesty,
          empath_engagement := some r.engagement }
  | Except.error e =>
      { s with
          empath_analysis := "[Empath]: Ошибка анализа: " ++ e,
          empath_thought := "Ошибка анализа: " ++ e }

/-! ### Strategic Coordinator (`src/agents/planner.py`) -/

/-- One generated topic turned into the plan dict built by
`create_interview_plan` (planner.py, success path). -/
def mkPlanTopic (i : Nat) (p : PlanTopic) : InterviewTopic :=
  { id := i + 1, topic := p.topic, difficulty := p.difficulty, rationale := p.rationale,
    status := "pending", score := none, feedback := "", correct_answer := none,
    weak_answers := 0, questions_asked := none }

/-- `enumerate` loop of `create_interview_plan`. -/
def buildPlanTopics : Nat → List PlanTopic → List InterviewTopic
  | _, [] => []
  | i, p :: rest => mkPlanTopic i p :: buildPlanTopics (i + 1) rest

/-- The two-topic fallback plan of `create_interview_plan` (error path). -/
def fallbackPlan (role grade experience : String) : List InterviewTopic :=
  [ { id := 1, topic := "Базовые навыки для " ++ role,
      difficulty := if containsSub (pyToLower grade) "junior" then "easy" else "medium",
      rationale := "Проверка фундаментальных знаний", status := "pending", score := none,
      feedback := "", correct_answer := none, weak_answers := 0, questions_asked := none },
    { id := 2, topic := "Практический опыт: " ++ experience.take 50 ++ "...",
      difficulty := "medium", rationale := "Проверка заявленного опыта", status := "pending",
      score := none, feedback := "", correct_answer := none, weak_answers := 0,
      questions_asked := none } ]

/-- `create_interview_plan` (planner.py): returns the plan (at most 8
topics, all `pending`) and the recorded planner thought; the error path
returns the fallback plan. -/
def create_interview_plan (role grade experience : String)
    (j : Except String InterviewPlanOutput) : List InterviewTopic × String :=
  match j with
  | Except.ok r => (buildPlanTopics 0 (r.topics.take 8), r.internal_thought)
  | Except.error e => (fallbackPlan role grade experience, "Fallback план: " ++ e)

/-- `first_turn_plan` (planner.py): opening-mode planning.  Marks the
first plan topic `in_progress` (in-place mutation of
`state["interview_plan"][0]` in the source) and emits the greeting
directive. -/
def first_turn_plan (s : InterviewState) : InterviewState :=
  let current_topic := match s.interview_plan with
    | [] => "Общие вопросы"
    | t :: _ => t.topic
  let plan := match s.interview_plan with
    | [] => []
    | t :: rest => { t with status := "in_progress" } :: rest
  let directive := "Поприветствуй кандидата " ++ s.metadata.name ++
    " (1 предложение). Упомяни опыт: " ++ s.metadata.experience.take 50 ++
    ". Задай ОДИН простой вопрос по теме: " ++ current_topic ++ "."
  let thought := "Начало интервью. Первая тема: " ++ current_topic
  { s with interview_plan := plan,
           planner_directive := directive,
           planner_thought := thought,
           internal_debate := "[Planner]: " ++ thought,
           next_step := "respond" }

/-- `quick_plan` (planner.py): fast-mode planning for `question` /
`off_topic`, touching no plan state. -/
def quick_plan (s : InterviewState) (j : Except String QuickPlannerOutput) :
    InterviewState :=
  match j with
  | Except.ok r =>
      { s with planner_directive := r.directive,
               planner_thought := r.internal_thought,
               internal_debate := "[Router]: " ++ s.router_thought ++
                 "\n[Planner]: " ++ r.internal_thought,
               next_step := "respond" }
  | Except.error e =>
      { s with planner_directive := "Продолжай интервью",
               planner_thought := "Ошибка: " ++ e,
               internal_debate := "[Planner]: Ошибка: " ++ e,
               next_step := "respond" }

/-- `.get("questions_asked", 0)` on a topic dict. -/
def qaCount (t : InterviewTopic) : Nat := t.questions_asked.getD 0

/-- `find_next_pending_topic` (planner.py): index of the first topic
with status `pending`, or the plan length when none is pending. -/
def find_next_pending_topic : List InterviewTopic → Nat
  | [] => 0
  | t :: rest => if t.status = "pending" then 0 else find_next_pending_topic rest + 1

/-- `if topic_score is not None: updated_plan[current_idx]["score"] = topic_score`. -/
def scoreTopic (r : PlannerOutput) (t : InterviewTopic) : InterviewTopic :=
  match r.topic_score with
  | some sc => { t with score := some sc }
  | none => t

/-- The `internal_debate` string assembled by `full_plan` (built from
the pre-override planner thought, as in the source). -/
def fullPlanDebate (s : InterviewState) (thought : String) : String :=
  let parts :=
    (if s.router_thought ≠ "" then ["[Router]: " ++ s.router_thought] else []) ++
    (if s.skeptic_thought ≠ "" then ["[Skeptic]: " ++ s.skeptic_thought] else []) ++
    (if s.empath_thought ≠ "" then ["[Empath]: " ++ s.empath_thought] else []) ++
    ["[Planner]: " ++ thought]
  joinSep "\n" parts

/-- Step 1 of `full_plan` (the `if current_idx < len(updated_plan)`
block): record the provider topic score on the current topic and
increment its questions-asked counter. -/
def recordScorePlan (r : PlannerOutput) (plan : List InterviewTopic) (idx : Nat) :
    List InterviewTopic :=
  match plan[idx]? with
  | none => plan
  | some t => plan.set idx { scoreTopic r t with questions_asked := some (qaCount t + 1) }

/-- The `questions_asked >= 2` hard-cap check of `full_plan`. -/
def moveToNext (plan1 : List InterviewTopic) (idx : Nat) : Bool :=
  match plan1[idx]? with
  | some t => decide (2 ≤ qaCount t)
  | none => false

/-- Topic-transition block of `full_plan`: mark the current topic
completed, pick the lowest-indexed pending topic and (when it exists)
mark it in progress; returns the new plan and the new topic index. -/
def transitionPlan (plan1 : List InterviewTopic) (idx : Nat) :
    List InterviewTopic × Nat :=
  let plan2 := match plan1[idx]? with
    | some t => plan1.set idx { t with status := "completed" }
    | none => plan1
  let new_topic_index := find_next_pending_topic plan2
  let plan3 := match plan2[new_topic_index]? with
    | some t => plan2.set new_topic_index { t with status := "in_progress" }
    | none => plan2
  (plan3, new_topic_index)

/-- The combined plan/index update of the success path of `full_plan`:
score recording, the questions-asked hard cap, and the optional topic
transition. -/
def fullPlanPR (s : InterviewState) (r : PlannerOutput) : List InterviewTopic × Nat :=
  let plan1 := recordScorePlan r s.interview_plan s.current_topic_index
  let transition := decide (r.next_action = "next_topic") ||
    moveToNext plan1 s.current_topic_index
  if transition then transitionPlan plan1 s.current_topic_index
  else (plan1, s.current_topic_index)

/-- `full_plan` (planner.py): full-mode planning for `answer` turns.
`max_turns` models `int(os.getenv("MAX_TURNS", "10"))`.  The provider
error path returns only the generic continue directive (plan,
`should_end` and `behavioral_context` keys are absent from the returned
patch, so the state keeps them). -/
def full_plan (s : InterviewState) (j : Except String PlannerOutput)
    (max_turns : Nat) : InterviewState :=
  match j with
  | Except.error e =>
      { s with planner_directive := "Продолжай интервью",
               planner_thought := "Ошибка: " ++ e,
               internal_debate := "[Planner]: Ошибка: " ++ e,
               next_step := "respond" }
  | Except.ok r =>
      let move_to_next := moveToNext
        (recordScorePlan r s.interview_plan s.current_topic_index)
        s.current_topic_index
      let pr := fullPlanPR s r
      let plan3 := pr.1
      let new_topic_index := pr.2
      let should_end := decide (r.next_action = "finish") ||
        decide (plan3.length ≤ new_topic_index) || decide (max_turns ≤ s.turn_id)
      let internal_debate := fullPlanDebate s r.internal_thought
      let bc0 := s.behavioral_context
      let bc1 := if r.new_protocol ≠ "" ∧ r.new_protocol ≠ "standard" then
          { bc0 with protocol := r.new_protocol } else bc0
      let bc2 := if s.hallucination_detected then
          { bc1 with hallucination_count := bc1.hallucination_count + 1 } else bc1
      let directive := if s.hallucination_detected then
          (if s.skeptic_correct_answer.getD "" ≠ "" then
            "КРАТКО уточни/оспорь ложный факт: \x27" ++ s.skeptic_correct_answer.getD "" ++
              "\x27. Не объясняй подробно, только уточни источник или факт. Затем задай следующий вопрос."
          else
            "КРАТКО уточни ложный факт (кандидат выдумал информацию). Спроси откуда информация. Затем задай следующий вопрос.")
        else r.directive
      let thought := if s.hallucination_detected then
          "ГАЛЛЮЦИНАЦИЯ обнаружена! " ++ r.internal_thought else r.internal_thought
      { s with interview_plan := plan3,
               current_topic_index := new_topic_index,
               planner_directive := directive,
               planner_thought := thought,
               internal_debate := internal_debate,
               behavioral_context := bc2,
               move_to_next_topic := move_to_next,
               should_end := should_end,
               next_step := if should_end then "end" else "respond" }

/-! ### Dialogue Renderer (`src/agents/voice.py`, `voice_node`) -/

/-- `voice_node` (voice.py): appends the turn messages to the history
and advances the turn counter by 1 on both the success and the error
path. -/
def voice_node (s : InterviewState) (j : Except String VoiceOutput) : InterviewState :=
  match j with
  | Except.ok r =>
      let internal_thoughts := if s.internal_debate ≠ "" then
          s.internal_debate ++ "\n[Voice]: " ++ r.internal_thought
        else "[Voice]: " ++ r.internal_thought
      let new_messages :=
        (if s.current_user_message ≠ "" then
            [({ role := "user", content := s.current_user_message } : Message)]
          else []) ++
        [({ role := "assistant", content := r.message } : Message)]
      { s with messages := s.messages ++ new_messages,
               voice_thought := r.internal_thought,
               current_response := r.message,
               internal_debate := internal_thoughts,
               turn_id := s.turn_id + 1,
               next_step := "router" }
  | Except.error e =>
      let error_response := "Хорошо, давайте перейдём к следующему вопросу."
      { s with messages := s.messages ++
                 [({ role := "assistant", content := error_response } : Message)],
               voice_thought := "Ошибка: " ++ e,
               current_response := error_response,
               internal_debate := "[Voice]: Ошибка: " ++ e,
               turn_id := s.turn_id + 1,
               next_step := "router" }

/-! ### Report Generator (`src/agents/reporter.py`) -/

/-- The "did not answer" indicator list of `count_unanswered_questions`. -/
def notAnsweredIndicators : List String :=
  ["не ответил на вопрос", "не отвечает на вопрос", "ушёл от темы", "уходит от темы",
   "off-topic", "не по теме", "не привёл пример", "отсутствует пример", "не показал",
   "отвлечённый пример"]

/-- One turn of `count_unanswered_questions`: `break` after the first
matching indicator means each turn is counted at most once. -/
def turnUnanswered (t : TurnLog) : Bool :=
  notAnsweredIndicators.any (fun ind => containsSub (pyToLower t.internal_thoughts) ind)

/-- `count_unanswered_questions` (reporter.py). -/
def count_unanswered_questions (log : List TurnLog) : Nat :=
  (log.filter turnUnanswered).length

/-- `collect_critical_issues` (reporter.py). -/
def collect_critical_issues (s : InterviewState) : String :=
  let hc := s.behavioral_context.hallucination_count
  let issues1 : List String :=
    if 0 < hc then ["Галлюцинации: " ++ toString hc ++ " случаев"] else []
  let cc := s.behavioral_context.contradiction_count.getD 0
  let issues2 := if 0 < cc then
      issues1 ++ ["Противоречия: " ++ toString cc ++ " случаев"] else issues1
  let issues3 := match s.skeptic_issues with
    | some l => if l ≠ [] then
        issues2 ++ ["Технические проблемы: " ++ joinSep "; " l] else issues2
    | none => issues2
  let ua := count_unanswered_questions s.turns_log
  let issues4 := if 0 < ua then
      issues3 ++ ["Вопросов без ответа: " ++ toString ua ++ " из " ++
        toString s.turns_log.length]
    else issues3
  if issues4 ≠ [] then joinSep "\n" issues4 else "Критических проблем не выявлено."

/-- The confirmed-skills / knowledge-gaps split of `reporter_node`
(score `>= 7` confirms a skill). -/
def collectSkills : List InterviewTopic → List SkillAssessment × List SkillAssessment
  | [] => ([], [])
  | t :: rest =>
      let (cs, kg) := collectSkills rest
      match t.score with
      | none => (cs, kg)
      | some sc =>
          let skill : SkillAssessment :=
            { topic := t.topic, score := sc, confirmed := 7 ≤ sc,
              feedback := t.feedback, correct_answer := t.correct_answer }
          if 7 ≤ sc then (skill :: cs, kg) else (cs, skill :: kg)

/-- `enumerate(xs, 1)` lines of the roadmap section. -/
def numberLines (i : Nat) : List String → List String
  | [] => []
  | x :: rest => ("  " ++ toString i ++ ". " ++ x) :: numberLines (i + 1) rest

/-- `format_report_string` (reporter.py). -/
def format_report_string (feedback : FinalFeedback)
    (verdict_reasoning critical_issues : String) : String :=
  let lines0 := ["Финальный отчет по интервью", "", "Вердикт:",
    "  Оценка уровня: " ++ feedback.assessed_grade,
    "  Рекомендация: " ++ feedback.hiring_recommendation,
    "  Уверенность: " ++ toString feedback.confidence_score ++ "%",
    "  Обоснование: " ++ verdict_reasoning]
  let lines1 := if critical_issues ≠ "" ∧ critical_issues ≠ "Критических проблем не выявлено." then
      lines0 ++ ["", "Критические проблемы:"] ++
        ((critical_issues.splitOn "\n").filter (fun i => i.trim ≠ "")).map
          (fun i => "  - " ++ i)
    else lines0
  let lines2 := lines1 ++ ["", "Hard Skills:"]
  let lines3 := if feedback.confirmed_skills ≠ [] then
      lines2 ++ ["  Подтверждённые навыки:"] ++ feedback.confirmed_skills.map
        (fun sk => "    - " ++ sk.topic ++ ": " ++ toString sk.score ++ "/10")
    else lines2
  let lines4 := if feedback.knowledge_gaps ≠ [] then
      lines3 ++ ["  Пробелы в знаниях:"] ++ feedback.knowledge_gaps.map
        (fun g => "    - " ++ g.topic ++ ": " ++ toString g.score ++ "/10")
    else lines3
  let lines5 := if feedback.confirmed_skills = [] ∧ feedback.knowledge_gaps = [] then
      lines4 ++ ["  (недостаточно данных для оценки)"] else lines4
  let lines6 := lines5 ++ ["", "Soft Skills:",
    "  Ясность изложения: " ++ toString feedback.soft_skills.clarity ++ "/10",
    "  Честность: " ++ toString feedback.soft_skills.honesty ++ "/10",
    "  Вовлечённость: " ++ toString feedback.soft_skills.engagement ++ "/10"]
  let lines7 := if feedback.soft_skills.notes ≠ "" then
      lines6 ++ ["  Заметки: " ++ feedback.soft_skills.notes] else lines6
  let lines8 := if feedback.roadmap ≠ [] then
      lines7 ++ ["", "Рекомендации по развитию:"] ++ numberLines 1 (feedback.roadmap.take 5)
    else lines7
  let lines9 := if feedback.resources ≠ [] then
      lines8 ++ ["", "Полезные ресурсы:"] ++ (feedback.resources.take 3).map
        (fun r => "  - " ++ r)
    else lines8
  joinSep "\n" lines9

/-- `reporter_node` (reporter.py): produces the final feedback and
report string and sets `should_end := true`; the provider error path
still ends the session with a degraded report. -/
def reporter_node (s : InterviewState) (j : Except String ReporterOutput) :
    InterviewState :=
  let critical_issues := collect_critical_issues s
  match j with
  | Except.ok r =>
      let skills := collectSkills s.interview_plan
      let feedback : FinalFeedback :=
        { assessed_grade := r.assessed_grade,
          hiring_recommendation := r.hiring_recommendation,
          confidence_score := r.confidence_score,
          confirmed_skills := skills.1,
          knowledge_gaps := skills.2,
          soft_skills := { clarity := r.clarity_score, honesty := r.honesty_score,
                           engagement := r.engagement_score, notes := r.soft_skills_notes },
          roadmap := r.roadmap,
          resources := r.resources }
      { s with final_feedback := some feedback,
               final_report_string :=
                 format_report_string feedback r.verdict_reasoning critical_issues,
               reporter_thought := r.internal_thought,
               internal_debate := "[Reporter]: " ++ r.internal_thought,
               should_end := true }
  | Except.error e =>
      { s with final_feedback := none,
               final_report_string := "Ошибка генерации отчета: " ++ e,
               reporter_thought := "Ошибка: " ++ e,
               internal_debate := "[Reporter]: Ошибка: " ++ e,
               should_end := true }

/-! ### Workflow graph and Session Orchestrator (`src/graph.py`) -/

/-- All Judgment-Provider results consumed by one workflow invocation
(one argument per LLM-backed node; unused ones are ignored on branches
that do not reach the node). -/
structure TurnJudgments where
  router : Except String RouterOutput
  skeptic : Except String SkepticOutput
  empath : Except String EmpathOutput
  planner : Except String PlannerOutput
  quick : Except String QuickPlannerOutput
  voice : Except String VoiceOutput
  reporter : Except String ReporterOutput

/-- `route_from_router` (graph.py). -/
def route_from_router (s : InterviewState) : String :=
  if s.turn_id = 0 then "first_turn"
  else if s.next_step = "end" then "end"
  else if s.next_step = "analyze" then "analyze"
  else "quick_respond"

/-- `route_from_planner` (graph.py). -/
def route_from_planner (s : InterviewState) : String :=
  if s.should_end then "end" else "respond"

/-- `parallel_analysis_node` (graph.py): Skeptic and Empath run
concurrently on the same snapshot and write disjoint key sets, so the
last-writer-wins dict merge equals sequential composition. -/
def parallel_analysis_node (s : InterviewState) (js : Except String SkepticOutput)
    (je : Except String EmpathOutput) : InterviewState :=
  empath_node (skeptic_node s js) je

/-- `planner_node` (planner.py): mode dispatch on turn number and intent. -/
def planner_node (s : InterviewState) (j : TurnJudgments) (max_turns : Nat) :
    InterviewState :=
  if s.turn_id = 0 then first_turn_plan s
  else if s.user_intent = "question" ∨ s.user_intent = "off_topic" then
    quick_plan s j.quick
  else full_plan s j.planner max_turns

/-- One compiled-graph invocation (`build_interview_graph` wiring in
graph.py): router, then conditional edges to reporter / parallel
analysis / planner, then conditional edge to voice or reporter. -/
def graph_invoke (s : InterviewState) (j : TurnJudgments) (max_turns : Nat) :
    InterviewState :=
  let s1 := router_node s j.router
  if route_from_router s1 = "end" then reporter_node s1 j.reporter
  else
    let s2 := if route_from_router s1 = "analyze" then
        parallel_analysis_node s1 j.skeptic j.empath
      else s1
    let s3 := planner_node s2 j max_turns
    if route_from_planner s3 = "end" then reporter_node s3 j.reporter
    else voice_node s3 j.voice

/-- The agent-message extraction of `start_interview` /
`process_message`: last assistant message of the history. -/
def lastAssistant : List Message → String
  | [] => ""
  | m :: rest =>
      let r := lastAssistant rest
      if r ≠ "" then r else if m.role = "assistant" then m.content else ""

/-- `result.get("current_response", "")`, falling back to the last
assistant message of the history. -/
def extract_message (r : InterviewState) : String :=
  if r.current_response ≠ "" then r.current_response else lastAssistant r.messages

/-- `InterviewCoach.start_interview` (graph.py): build the initial
state, generate the plan, run the opening workflow invocation; returns
the new state and the first interviewer message. -/
def start_interview (name role grade experience : String)
    (plan_j : Except String InterviewPlanOutput) (j : TurnJudgments)
    (max_turns : Nat) : InterviewState × String :=
  let s0 := create_initial_state name role grade experience
  let pr := create_interview_plan role grade experience plan_j
  let s1 := { s0 with interview_plan := pr.1, current_topic_index := 0,
                      planner_thought := pr.2,
                      turn_id := 0, current_user_message := "", turns_log := [] }
  let r := graph_invoke s1 j max_turns
  (r, extract_message r)

/-- The scratch-field reset at the top of
`InterviewCoach.process_message` (graph.py). -/
def resetScratch (s : InterviewState) (user_message : String) : InterviewState :=
  { s with current_user_message := user_message,
           skeptic_analysis := "", empath_analysis := "", planner_directive := "",
           internal_debate := "", hallucination_detected := false,
           router_thought := "", skeptic_thought := "", empath_thought := "",
           planner_thought := "", voice_thought := "", move_to_next_topic := false }

/-- `InterviewCoach.process_message` (graph.py), on an active session:
run one workflow invocation and append the turn record
`(previous question, candidate message, internal thoughts)` to the turn
log; `last_agent_message` models `self._last_agent_message`.  Returns
the new state and the interviewer response (the report string when the
session just ended with a report). -/
def process_message (s : InterviewState) (last_agent_message user_message : String)
    (j : TurnJudgments) (max_turns : Nat) : InterviewState × String :=
  let current_turn_id := s.turn_id
  let s1 := resetScratch s user_message
  let r := graph_invoke s1 j max_turns
  let resp0 := extract_message r
  let resp := if r.should_end = true ∧ r.final_report_string ≠ "" then
      r.final_report_string else resp0
  let log : TurnLog := { turn_id := current_turn_id,
                         agent_visible_message := last_agent_message,
                         user_message := user_message,
                         internal_thoughts := r.internal_debate }
  ({ r with turns_log := r.turns_log ++ [log] }, resp)

/-- The exported session record of `InterviewCoach.export_session`. -/
structure SessionExport where
  participant_name : String
  turns : List TurnLog
  final_feedback : String
deriving Repr, DecidableEq

/-- `InterviewCoach.export_session` (graph.py): the participant name is
a hard-coded literal, not read from the candidate metadata. -/
def export_session (s : InterviewState) : SessionExport :=
  { participant_name := "Садреддинов Джавид Ханбаба оглы",
    turns := s.turns_log,
    final_feedback := s.final_report_string }

/-! ### Reachable session states -/

/-- Session states reachable through the orchestrator: the state after
`start_interview`, and the state after `process_message` on any
reachable, still-active state (`InterviewCoach` refuses messages once
`should_end` made the session inactive). -/
inductive Reachable : InterviewState → Prop
  | start (name role grade experience : String)
      (plan_j : Except String InterviewPlanOutput) (j : TurnJudgments)
      (max_turns : Nat) :
      Reachable (start_interview name role grade experience plan_j j max_turns).1
  | step (s : InterviewState) (last_agent_message user_message : String)
      (j : TurnJudgments) (max_turns : Nat) :
      Reachable s → s.should_end = false →
      Reachable (process_message s last_agent_message user_message j max_turns).1

/-! ### Invariant definitions -/

/-- A freshly created plan topic: every plan-generation path
(`buildPlanTopics`, `fallbackPlan`) yields `pending` topics whose
`questions_asked` key is absent. -/
def freshTopic (t : InterviewTopic) : Prop :=
  t.status = "pending" ∧ t.questions_asked = none

/-- Structural plan invariant relative to the current topic index: an
`in_progress` topic can only sit at the current index and has been
asked at most one question so far, and `pending` topics have never been
asked a question. -/
def planInv (plan : List InterviewTopic) (idx : Nat) : Prop :=
  (∀ (i : Nat) (t : InterviewTopic), plan[i]? = some t →
    t.status = "in_progress" → i = idx ∧ qaCount t ≤ 1) ∧
  (∀ (i : Nat) (t : InterviewTopic), plan[i]? = some t →
    t.status = "pending" → qaCount t = 0)

/-- Inductive invariant of reachable session states. -/
def Inv (s : InterviewState) : Prop :=
  planInv s.interview_plan s.current_topic_index ∧
  (s.should_end = false → s.interview_plan ≠ [] →
    ∃ t, s.interview_plan[s.current_topic_index]? = some t ∧ t.status = "in_progress") ∧
  s.behavioral_context.off_topic_count = 0 ∧
  s.behavioral_context.contradiction_count = none ∧
  1 ≤ s.turn_id

/-! ### Concrete fixtures (sample provider judgments and sessions) -/

/-- A one-topic generated interview plan. -/
def samplePlanJ : Except String InterviewPlanOutput :=
  Except.ok { topics := [{ topic := "Python", difficulty := "easy", rationale := "база" }],
              internal_thought := "план" }

/-- Benign provider judgments for one workflow invocation. -/
def sampleJ : TurnJudgments :=
  { router := Except.ok { intent := "answer", internal_thought := "отвечает" },
    skeptic := Except.ok { score := 5, accuracy := "точный", depth := "достаточный",
                           internal_thought := "ок" },
    empath := Except.ok { demeanor := "normal", clarity := 5, honesty := 5,
                          engagement := "medium", stress_level := "low",
                          internal_thought := "спокоен" },
    planner := Except.ok { topic_score := some 5, next_action := "continue",
                           directive := "дальше", internal_thought := "мысль" },
    quick := Except.ok { directive := "кратко", internal_thought := "мысль" },
    voice := Except.ok { message := "Вопрос?", internal_thought := "тон" },
    reporter := Except.ok { assessed_grade := "Junior", hiring_recommendation := "Hire",
                            confidence_score := 50, verdict_reasoning := "обоснование",
                            clarity_score := 5, honesty_score := 5, engagement_score := 5,
                            soft_skills_notes := "заметки", roadmap := ["a", "b", "c"],
                            resources := ["r"], internal_thought := "вывод" } }

/-- A technical judgment flagging a hallucination with score 7. -/
def hallucinationSkepticOut : SkepticOutput :=
  { score := 7, accuracy := "галлюцинация", depth := "поверхностный",
    internal_thought := "выдумал библиотеку",
    correct_answer := some "Такой библиотеки не существует" }

/-- Judgments for a hallucination turn where the strategist still
reports topic score 7. -/
def hallucinationJ : TurnJudgments :=
  { sampleJ with
    skeptic := Except.ok hallucinationSkepticOut,
    planner := Except.ok { topic_score := some 7, next_action := "continue",
                           directive := "дальше", internal_thought := "мысль" } }

/-- A full-mode strategist judgment that wants to continue. -/
def contPlannerJ : PlannerOutput :=
  { topic_score := some 5, next_action := "continue",
    directive := "дальше", internal_thought := "мысль" }

/-- Judgments for a turn on which the candidate asks to stop. -/
def stopJ : TurnJudgments :=
  { sampleJ with router := Except.ok { intent := "stop", internal_thought := "стоп" } }

/-- The session right after the opening invocation. -/
def sampleStart : InterviewState :=
  (start_interview "Иван" "Python Dev" "Senior" "10 лет опыта" samplePlanJ sampleJ 10).1

/-- The topic the opening invocation marks `in_progress`. -/
def sampleTopic : InterviewTopic :=
  { id := 1, topic := "Python", difficulty := "easy", rationale := "база",
    status := "in_progress", score := none, feedback := "", correct_answer := none,
    weak_answers := 0, questions_asked := none }

/-- An answer turn processed with the benign judgments. -/
def answerTurn : InterviewState :=
  (process_message sampleStart "Вопрос?" "Ответ про Python" sampleJ 10).1

/-- The topic state after that one scored answer turn. -/
def answerTopic : InterviewTopic :=
  { id := 1, topic := "Python", difficulty := "easy", rationale := "база",
    status := "in_progress", score := some 5, feedback := "", correct_answer := none,
    weak_answers := 0, questions_asked := some 1 }

/-- A turn on which the Skeptic flags a hallucination with score 7. -/
def hallucinationTurn : InterviewState :=
  (process_message sampleStart "Вопрос?" "Использую quantum-arch" hallucinationJ 10).1

/-- A stop turn, terminating via the Report Generator. -/
def stopTurn : InterviewState :=
  (process_message sampleStart "Вопрос?" "стоп" stopJ 10).1

/-- A session state whose only logged turn the reporter statistics
themselves count as unanswered (off-topic chatter), with declared
experience of a staff engineer. -/
def offTopicLogState : InterviewState :=
  { create_initial_state "X" "Dev" "Senior" "10 years, Staff Engineer" with
    turns_log := [{ turn_id := 1, agent_visible_message := "Расскажите про Django ORM",
                    user_message := "давайте лучше поговорим о погоде",
                    internal_thoughts := "[Router]: кандидат не по теме" }] }

/-- A report judgment recommending a hire with high confidence. -/
def hireReporterJ : ReporterOutput :=
  { assessed_grade := "Senior", hiring_recommendation := "Hire", confidence_score := 90,
    verdict_reasoning := "большой опыт", clarity_score := 8, honesty_score := 8,
    engagement_score := 8, soft_skills_notes := "", roadmap := [], resources := [],
    internal_thought := "" }

/-! ## Generic helper lemmas -/

theorem countP_le_one_of_unique {α : Type} (p : α → Bool) :
    ∀ (l : List α) (k : Nat),
      (∀ (i : Nat) (a : α), l[i]? = some a → p a = true → i = k) →
      l.countP p ≤ 1 := by
  intro l
  induction l with
  | nil => intro k _; simp
  | cons a l ih =>
    intro k h
    by_cases hpa : p a = true
    · have hk := h 0 a (by simp) hpa
      have hzero : l.countP p = 0 := by
        rw [List.countP_eq_zero]
        intro b hb hpb
        obtain ⟨n, hn⟩ := List.mem_iff_getElem?.mp hb
        have := h (n + 1) b (by simpa using hn) hpb
        omega
      simp [List.countP_cons, hpa, hzero]
    · have hle : l.countP p ≤ 1 := by
        match k with
        | 0 =>
          have hzero : l.countP p = 0 := by
            rw [List.countP_eq_zero]
            intro b hb hpb
            obtain ⟨n, hn⟩ := List.mem_iff_getElem?.mp hb
            have := h (n + 1) b (by simpa using hn) hpb
            omega
          omega
        | k' + 1 =>
          refine ih k' ?_
          intro i b hb hpb
          have := h (i + 1) b (by simpa using hb) hpb
          omega
      simpa [List.countP_cons, hpa] using hle

theorem find_next_pending_topic_le (plan : List InterviewTopic) :
    find_next_pending_topic plan ≤ plan.length := by
  induction plan with
  | nil => simp [find_next_pending_topic]
  | cons t rest ih =>
    simp only [find_next_pending_topic, List.length_cons]
    split
    · omega
    · omega

theorem find_next_pending_topic_pending (plan : List InterviewTopic) :
    ∀ (t : InterviewTopic), plan[find_next_pending_topic plan]? = some t →
      t.status = "pending" := by
  induction plan with
  | nil => intro t h; simp at h
  | cons a rest ih =>
    intro t h
    by_cases ha : a.status = "pending"
    · simp only [find_next_pending_topic, if_pos ha, List.getElem?_cons_zero,
        Option.some.injEq] at h
      exact h ▸ ha
    · simp only [find_next_pending_topic, if_neg ha, List.getElem?_cons_succ] at h
      exact ih t h

theorem find_next_pending_topic_before (plan : List InterviewTopic) :
    ∀ (i : Nat) (t : InterviewTopic), i < find_next_pending_topic plan →
      plan[i]? = some t → t.status ≠ "pending" := by
  induction plan with
  | nil => intro i t _ h2; simp at h2
  | cons a rest ih =>
    intro i t h1 h2
    by_cases ha : a.status = "pending"
    · simp only [find_next_pending_topic, if_pos ha] at h1; omega
    · simp only [find_next_pending_topic, if_neg ha] at h1
      match i with
      | 0 =>
        simp only [List.getElem?_cons_zero, Option.some.injEq] at h2
        exact h2 ▸ ha
      | i' + 1 =>
        rw [List.getElem?_cons_succ] at h2
        exact ih i' t (by omega) h2

/-! ## Plan-generation freshness -/

theorem buildPlanTopics_fresh (l : List PlanTopic) :
    ∀ (n : Nat) (t : InterviewTopic), t ∈ buildPlanTopics n l → freshTopic t := by
  induction l with
  | nil => intro n t h; simp [buildPlanTopics] at h
  | cons p rest ih =>
    intro n t h
    simp only [buildPlanTopics, List.mem_cons] at h
    rcases h with h | h
    · subst h; exact ⟨rfl, rfl⟩
    · exact ih (n + 1) t h

theorem fallbackPlan_fresh (role grade experience : String) (t : InterviewTopic)
    (h : t ∈ fallbackPlan role grade experience) : freshTopic t := by
  simp only [fallbackPlan, List.mem_cons, List.not_mem_nil, or_false] at h
  rcases h with h | h <;> (subst h; exact ⟨rfl, rfl⟩)

theorem create_interview_plan_fresh (role grade experience : String)
    (j : Except String InterviewPlanOutput) (t : InterviewTopic)
    (h : t ∈ (create_interview_plan role grade experience j).1) : freshTopic t := by
  cases j with
  | ok r =>
      exact buildPlanTopics_fresh (r.topics.take 8) 0 t
        (by simpa [create_interview_plan] using h)
  | error e =>
      exact fallbackPlan_fresh role grade experience t
        (by simpa [create_interview_plan] using h)

theorem planInv_opening (t0 : InterviewTopic) (rest : List InterviewTopic)
    (hfresh : ∀ u ∈ t0 :: rest, freshTopic u) :
    planInv ({ t0 with status := "in_progress" } :: rest) 0 := by
  constructor
  · intro i u hu hst
    match i with
    | 0 =>
      simp only [List.getElem?_cons_zero, Option.some.injEq] at hu
      refine ⟨rfl, ?_⟩
      have h0 := hfresh t0 (List.mem_cons_self _ _)
      rw [← hu]
      simp [qaCount, h0.2]
    | i' + 1 =>
      rw [List.getElem?_cons_succ] at hu
      have hf := hfresh u (List.mem_cons_of_mem _ (List.getElem?_mem hu))
      rw [hf.1] at hst
      simp at hst
  · intro i u hu hst
    match i with
    | 0 =>
      simp only [List.getElem?_cons_zero, Option.some.injEq] at hu
      rw [← hu] at hst
      simp at hst
    | i' + 1 =>
      rw [List.getElem?_cons_succ] at hu
      have hf := hfresh u (List.mem_cons_of_mem _ (List.getElem?_mem hu))
      simp [qaCount, hf.2]

/-! ## Node frame lemmas -/

theorem router_node_frame (s : InterviewState) (j : Except String RouterOutput) :
    (router_node s j).interview_plan = s.interview_plan ∧
    (router_node s j).current_topic_index = s.current_topic_index ∧
    (router_node s j).behavioral_context = s.behavioral_context ∧
    (router_node s j).should_end = s.should_end ∧
    (router_node s j).turn_id = s.turn_id := by
  unfold router_node
  split
  · exact ⟨rfl, rfl, rfl, rfl, rfl⟩
  · cases j with
    | ok r => exact ⟨rfl, rfl, rfl, rfl, rfl⟩
    | error e => exact ⟨rfl, rfl, rfl, rfl, rfl⟩

theorem skeptic_node_frame (s : InterviewState) (j : Except String SkepticOutput) :
    (skeptic_node s j).interview_plan = s.interview_plan ∧
    (skeptic_node s j).current_topic_index = s.current_topic_index ∧
    (skeptic_node s j).behavioral_context = s.behavioral_context ∧
    (skeptic_node s j).should_end = s.should_end ∧
    (skeptic_node s j).turn_id = s.turn_id ∧
    (skeptic_node s j).user_intent = s.user_intent := by
  unfold skeptic_node
  split
  · exact ⟨rfl, rfl, rfl, rfl, rfl, rfl⟩
  · cases j with
    | ok r => exact ⟨rfl, rfl, rfl, rfl, rfl, rfl⟩
    | error e => exact ⟨rfl, rfl, rfl, rfl, rfl, rfl⟩

theorem empath_node_frame (s : InterviewState) (j : Except String EmpathOutput) :
    (empath_node s j).interview_plan = s.interview_plan ∧
    (empath_node s j).current_topic_index = s.current_topic_index ∧
    (empath_node s j).should_end = s.should_end ∧
    (empath_node s j).turn_id = s.turn_id ∧
    (empath_node s j).user_intent = s.user_intent ∧
    (empath_node s j).behavioral_context.off_topic_count =
      s.behavioral_context.off_topic_count ∧
    (empath_node s j).behavioral_context.contradiction_count =
      s.behavioral_context.contradiction_count := by
  cases j with
  | ok r =>
    unfold empath_node
    dsimp only
    split
    · exact ⟨rfl, rfl, rfl, rfl, rfl, rfl, rfl⟩
    · exact ⟨rfl, rfl, rfl, rfl, rfl, rfl, rfl⟩
  | error e => exact ⟨rfl, rfl, rfl, rfl, rfl, rfl, rfl⟩

theorem quick_plan_frame (s : InterviewState) (j : Except String QuickPlannerOutput) :
    (quick_plan s j).interview_plan = s.interview_plan ∧
    (quick_plan s j).current_topic_index = s.current_topic_index ∧
    (quick_plan s j).behavioral_context = s.behavioral_context ∧
    (quick_plan s j).should_end = s.should_end ∧
    (quick_plan s j).turn_id = s.turn_id := by
  cases j with
  | ok r => exact ⟨rfl, rfl, rfl, rfl, rfl⟩
  | error e => exact ⟨rfl, rfl, rfl, rfl, rfl⟩

theorem first_turn_plan_frame (s : InterviewState) :
    (first_turn_plan s).current_topic_index = s.current_topic_index ∧
    (first_turn_plan s).behavioral_context = s.behavioral_context ∧
    (first_turn_plan s).should_end = s.should_end ∧
    (first_turn_plan s).turn_id = s.turn_id := by
  exact ⟨rfl, rfl, rfl, rfl⟩

theorem voice_node_frame (s : InterviewState) (j : Except String VoiceOutput) :
    (voice_node s j).interview_plan = s.interview_plan ∧
    (voice_node s j).current_topic_index = s.current_topic_index ∧
    (voice_node s j).behavioral_context = s.behavioral_context ∧
    (voice_node s j).should_end = s.should_end ∧
    (voice_node s j).turn_id = s.turn_id + 1 := by
  cases j with
  | ok r => exact ⟨rfl, rfl, rfl, rfl, rfl⟩
  | error e => exact ⟨rfl, rfl, rfl, rfl, rfl⟩

theorem reporter_node_frame (s : InterviewState) (j : Except String ReporterOutput) :
    (reporter_node s j).interview_plan = s.interview_plan ∧
    (reporter_node s j).current_topic_index = s.current_topic_index ∧
    (reporter_node s j).behavioral_context = s.behavioral_context ∧
    (reporter_node s j).should_end = true ∧
    (reporter_node s j).turn_id = s.turn_id := by
  cases j with
  | ok r => exact ⟨rfl, rfl, rfl, rfl, rfl⟩
  | error e => exact ⟨rfl, rfl, rfl, rfl, rfl⟩

theorem full_plan_error_frame (s : InterviewState) (e : String) (m : Nat) :
    (full_plan s (Except.error e) m).interview_plan = s.interview_plan ∧
    (full_plan s (Except.error e) m).current_topic_index = s.current_topic_index ∧
    (full_plan s (Except.error e) m).behavioral_context = s.behavioral_context ∧
    (full_plan s (Except.error e) m).should_end = s.should_end ∧
    (full_plan s (Except.error e) m).turn_id = s.turn_id ∧
    (full_plan s (Except.error e) m).planner_directive = "Продолжай интервью" := by
  exact ⟨rfl, rfl, rfl, rfl, rfl, rfl⟩

theorem full_plan_ok_proj (s : InterviewState) (r : PlannerOutput) (m : Nat) :
    (full_plan s (Except.ok r) m).interview_plan = (fullPlanPR s r).1 ∧
    (full_plan s (Except.ok r) m).current_topic_index = (fullPlanPR s r).2 ∧
    (full_plan s (Except.ok r) m).should_end =
      (decide (r.next_action = "finish") ||
       decide ((fullPlanPR s r).1.length ≤ (fullPlanPR s r).2) ||
       decide (m ≤ s.turn_id)) ∧
    (full_plan s (Except.ok r) m).turn_id = s.turn_id := by
  exact ⟨rfl, rfl, rfl, rfl⟩

/-! ## Plan-update lemmas for the full-mode coordinator -/

theorem scoreTopic_status (r : PlannerOutput) (t : InterviewTopic) :
    (scoreTopic r t).status = t.status := by
  unfold scoreTopic; split <;> rfl

theorem scoreTopic_questions (r : PlannerOutput) (t : InterviewTopic) :
    (scoreTopic r t).questions_asked = t.questions_asked := by
  unfold scoreTopic; split <;> rfl

theorem recordScorePlan_none (r : PlannerOutput) (plan : List InterviewTopic)
    (idx : Nat) (h : plan[idx]? = none) : recordScorePlan r plan idx = plan := by
  unfold recordScorePlan; rw [h]

theorem recordScorePlan_length (r : PlannerOutput) (plan : List InterviewTopic)
    (idx : Nat) : (recordScorePlan r plan idx).length = plan.length := by
  unfold recordScorePlan
  cases h : plan[idx]? with
  | none => rfl
  | some t => simp

theorem recordScorePlan_get_ne (r : PlannerOutput) (plan : List InterviewTopic)
    (idx i : Nat) (h : i ≠ idx) :
    (recordScorePlan r plan idx)[i]? = plan[i]? := by
  unfold recordScorePlan
  cases hh : plan[idx]? with
  | none => rfl
  | some t => exact List.getElem?_set_ne (Ne.symm h)

theorem recordScorePlan_get_eq (r : PlannerOutput) (plan : List InterviewTopic)
    (idx : Nat) (t : InterviewTopic) (ht : plan[idx]? = some t) :
    (recordScorePlan r plan idx)[idx]? =
      some { scoreTopic r t with questions_asked := some (qaCount t + 1) } := by
  obtain ⟨hlt, -⟩ := List.getElem?_eq_some.mp ht
  unfold recordScorePlan
  rw [ht]
  exact List.getElem?_set_eq_of_lt _ hlt

theorem moveToNext_eq (plan1 : List InterviewTopic) (idx : Nat) (t : InterviewTopic)
    (h : plan1[idx]? = some t) : moveToNext plan1 idx = decide (2 ≤ qaCount t) := by
  unfold moveToNext; rw [h]

/-- Preservation of the structural plan invariant by the topic
transition (abstract in the updated current topic `t1`): afterwards
either the new index is past the end of the plan or the lowest-indexed
previously-pending topic is now the unique `in_progress` topic. -/
theorem transition_inv (P : List InterviewTopic) (idx : Nat)
    (plan1 : List InterviewTopic) (t1 : InterviewTopic)
    (hlen : plan1.length = P.length)
    (h1 : plan1[idx]? = some t1)
    (hne : ∀ (i : Nat), i ≠ idx → plan1[i]? = P[i]?)
    (hplan : planInv P idx) :
    planInv (transitionPlan plan1 idx).1 (transitionPlan plan1 idx).2 ∧
    ((transitionPlan plan1 idx).1.length ≤ (transitionPlan plan1 idx).2 ∨
      ∃ t, (transitionPlan plan1 idx).1[(transitionPlan plan1 idx).2]? = some t ∧
        t.status = "in_progress") := by
  obtain ⟨hlt1, -⟩ := List.getElem?_eq_some.mp h1
  have h2idx : (plan1.set idx { t1 with status := "completed" })[idx]? =
      some { t1 with status := "completed" } :=
    List.getElem?_set_eq_of_lt _ hlt1
  have h2ne : ∀ (i : Nat), i ≠ idx →
      (plan1.set idx { t1 with status := "completed" })[i]? = P[i]? := by
    intro i hi
    rw [List.getElem?_set_ne (Ne.symm hi)]
    exact hne i hi
  unfold transitionPlan
  rw [h1]
  dsimp only
  set plan2 := plan1.set idx { t1 with status := "completed" } with hp2
  set nidx := find_next_pending_topic plan2 with hnx
  cases hu : plan2[nidx]? with
  | some u =>
    dsimp only
    have hupend : u.status = "pending" := find_next_pending_topic_pending plan2 u hu
    have hne2 : nidx ≠ idx := by
      intro hh
      rw [hh] at hu
      rw [h2idx] at hu
      simp only [Option.some.injEq] at hu
      rw [← hu] at hupend
      simp at hupend
    have hP : P[nidx]? = some u := by rw [← h2ne nidx hne2]; exact hu
    have huqa : qaCount u = 0 := hplan.2 nidx u hP hupend
    obtain ⟨hltn, -⟩ := List.getElem?_eq_some.mp hu
    have h3n : (plan2.set nidx { u with status := "in_progress" })[nidx]? =
        some { u with status := "in_progress" } := List.getElem?_set_eq_of_lt _ hltn
    have h3ne : ∀ (i : Nat), i ≠ nidx →
        (plan2.set nidx { u with status := "in_progress" })[i]? = plan2[i]? :=
      fun i hi => List.getElem?_set_ne (Ne.symm hi)
    refine ⟨⟨?_, ?_⟩, Or.inr ⟨{ u with status := "in_progress" }, h3n, rfl⟩⟩
    · intro i t h hst
      by_cases hi : i = nidx
      · subst hi
        rw [h3n] at h
        simp only [Option.some.injEq] at h
        subst h
        refine ⟨rfl, ?_⟩
        have hq : qaCount { u with status := "in_progress" } = qaCount u := rfl
        omega
      · rw [h3ne i hi] at h
        by_cases hidx : i = idx
        · subst hidx
          rw [h2idx] at h
          simp only [Option.some.injEq] at h
          subst h
          simp at hst
        · rw [h2ne i hidx] at h
          exact absurd (hplan.1 i t h hst).1 hidx
    · intro i t h hst
      by_cases hi : i = nidx
      · subst hi
        rw [h3n] at h
        simp only [Option.some.injEq] at h
        subst h
        simp at hst
      · rw [h3ne i hi] at h
        by_cases hidx : i = idx
        · subst hidx
          rw [h2idx] at h
          simp only [Option.some.injEq] at h
          subst h
          simp at hst
        · rw [h2ne i hidx] at h
          exact hplan.2 i t h hst
  | none =>
    dsimp only
    have hge : plan2.length ≤ nidx := by
      by_contra hcon
      push_neg at hcon
      rw [List.getElem?_eq_getElem hcon] at hu
      simp at hu
    refine ⟨⟨?_, ?_⟩, Or.inl hge⟩
    · intro i t h hst
      by_cases hidx : i = idx
      · subst hidx
        rw [h2idx] at h
        simp only [Option.some.injEq] at h
        subst h
        simp at hst
      · rw [h2ne i hidx] at h
        exact absurd (hplan.1 i t h hst).1 hidx
    · intro i t h hst
      by_cases hidx : i = idx
      · subst hidx
        rw [h2idx] at h
        simp only [Option.some.injEq] at h
        subst h
        simp at hst
      · rw [h2ne i hidx] at h
        exact hplan.2 i t h hst

/-- Preservation of the structural plan invariant by the full-mode
plan/index update, together with the dichotomy: afterwards either the
new index is past the end of the plan (which forces `should_end`) or an
`in_progress` topic sits at the new index. -/
theorem fullPlanPR_inv (s : InterviewState) (r : PlannerOutput)
    (hplan : planInv s.interview_plan s.current_topic_index)
    (hcur : s.interview_plan ≠ [] →
      ∃ t, s.interview_plan[s.current_topic_index]? = some t ∧
        t.status = "in_progress") :
    planInv (fullPlanPR s r).1 (fullPlanPR s r).2 ∧
    ((fullPlanPR s r).1.length ≤ (fullPlanPR s r).2 ∨
      ∃ t, (fullPlanPR s r).1[(fullPlanPR s r).2]? = some t ∧
        t.status = "in_progress") := by
  by_cases hnil : s.interview_plan = []
  · -- empty plan: every branch keeps the plan empty
    have hidx : s.interview_plan[s.current_topic_index]? = none := by
      rw [hnil]; simp
    have hrs : recordScorePlan r s.interview_plan s.current_topic_index = [] := by
      rw [recordScorePlan_none r _ _ hidx, hnil]
    have htp : transitionPlan [] s.current_topic_index = ([], 0) := by
      unfold transitionPlan
      simp [find_next_pending_topic]
    have hmv : moveToNext [] s.current_topic_index = false := by
      unfold moveToNext; simp
    unfold fullPlanPR
    dsimp only
    rw [hrs, hmv, Bool.or_false]
    by_cases hnt : r.next_action = "next_topic"
    · rw [if_pos (by simp [hnt]), htp]
      refine ⟨⟨?_, ?_⟩, Or.inl (by simp)⟩ <;> (intro i t h _; simp at h)
    · rw [if_neg (by simp [hnt])]
      refine ⟨⟨?_, ?_⟩, Or.inl (by simp)⟩ <;> (intro i t h _; simp at h)
  · obtain ⟨t0, ht0, hip⟩ := hcur hnil
    obtain ⟨hlt0, -⟩ := List.getElem?_eq_some.mp ht0
    have hqa0 : qaCount t0 ≤ 1 := (hplan.1 _ t0 ht0 hip).2
    have h1 := recordScorePlan_get_eq r s.interview_plan s.current_topic_index t0 ht0
    have h1len := recordScorePlan_length r s.interview_plan s.current_topic_index
    have h1ne := recordScorePlan_get_ne r s.interview_plan s.current_topic_index
    have ht1status :
        ({ scoreTopic r t0 with questions_asked := some (qaCount t0 + 1) }
          : InterviewTopic).status = "in_progress" :=
      (scoreTopic_status r t0).trans hip
    have ht1qa :
        qaCount { scoreTopic r t0 with questions_asked := some (qaCount t0 + 1) } =
          qaCount t0 + 1 := by
      simp [qaCount]
    unfold fullPlanPR
    dsimp only
    rw [moveToNext_eq _ _ _ h1, ht1qa]
    by_cases htr :
        (decide (r.next_action = "next_topic") || decide (2 ≤ qaCount t0 + 1)) = true
    · rw [if_pos htr]
      exact transition_inv s.interview_plan s.current_topic_index
        (recordScorePlan r s.interview_plan s.current_topic_index)
        { scoreTopic r t0 with questions_asked := some (qaCount t0 + 1) }
        h1len h1 (fun i hi => h1ne i hi) hplan
    · rw [if_neg htr]
      have hqa1 : qaCount t0 + 1 ≤ 1 := by
        simp only [Bool.or_eq_true, decide_eq_true_eq, not_or] at htr
        omega
      refine ⟨⟨?_, ?_⟩, Or.inr ⟨_, h1, ht1status⟩⟩
      · intro i t h hst
        by_cases hi : i = s.current_topic_index
        · subst hi
          rw [h1] at h
          simp only [Option.some.injEq] at h
          subst h
          exact ⟨rfl, by rw [ht1qa]; exact hqa1⟩
        · rw [h1ne i hi] at h
          exact absurd (hplan.1 i t h hst).1 hi
      · intro i t h hst
        by_cases hi : i = s.current_topic_index
        · subst hi
          rw [h1] at h
          simp only [Option.some.injEq] at h
          subst h
          rw [ht1status] at hst
          simp at hst
        · rw [h1ne i hi] at h
          exact hplan.2 i t h hst

theorem full_plan_ok_bc (s : InterviewState) (r : PlannerOutput) (m : Nat) :
    (full_plan s (Except.ok r) m).behavioral_context.off_topic_count =
      s.behavioral_context.off_topic_count ∧
    (full_plan s (Except.ok r) m).behavioral_context.contradiction_count =
      s.behavioral_context.contradiction_count := by
  unfold full_plan
  dsimp only
  by_cases h1 : r.new_protocol ≠ "" ∧ r.new_protocol ≠ "standard" <;>
    by_cases h2 : s.hallucination_detected = true <;>
      simp [h1, h2]

/-! ## Invariant preservation through the workflow -/

theorem route_from_planner_end (s : InterviewState) :
    route_from_planner s = "end" ↔ s.should_end = true := by
  unfold route_from_planner
  by_cases h : s.should_end = true <;> simp [h]

theorem planner_node_inv (s : InterviewState) (j : TurnJudgments) (m : Nat)
    (hturn : ¬s.turn_id = 0)
    (hplan : planInv s.interview_plan s.current_topic_index)
    (hcur : s.interview_plan ≠ [] → ∃ t,
      s.interview_plan[s.current_topic_index]? = some t ∧ t.status = "in_progress") :
    (planInv (planner_node s j m).interview_plan
      (planner_node s j m).current_topic_index) ∧
    ((planner_node s j m).should_end = false → (planner_node s j m).interview_plan ≠ [] →
      ∃ t, (planner_node s j m).interview_plan[
        (planner_node s j m).current_topic_index]? = some t ∧
        t.status = "in_progress") ∧
    (planner_node s j m).behavioral_context.off_topic_count =
      s.behavioral_context.off_topic_count ∧
    (planner_node s j m).behavioral_context.contradiction_count =
      s.behavioral_context.contradiction_count ∧
    (planner_node s j m).turn_id = s.turn_id := by
  unfold planner_node
  rw [if_neg hturn]
  by_cases hq : s.user_intent = "question" ∨ s.user_intent = "off_topic"
  · rw [if_pos hq]
    obtain ⟨hp, hi, hb, he, ht⟩ := quick_plan_frame s j.quick
    rw [hp, hi, hb, he, ht]
    exact ⟨hplan, fun _ => hcur, rfl, rfl, rfl⟩
  · rw [if_neg hq]
    cases hj : j.planner with
    | error e =>
      obtain ⟨hp, hi, hb, he, ht, -⟩ := full_plan_error_frame s e m
      rw [hp, hi, hb, he, ht]
      exact ⟨hplan, fun _ => hcur, rfl, rfl, rfl⟩
    | ok r =>
      obtain ⟨hp, hi, he, ht⟩ := full_plan_ok_proj s r m
      obtain ⟨hoff, hcontra⟩ := full_plan_ok_bc s r m
      obtain ⟨hPI, hdich⟩ := fullPlanPR_inv s r hplan hcur
      refine ⟨?_, ?_, hoff, hcontra, ht⟩
      · rw [hp, hi]; exact hPI
      · intro hse _
        rw [hp, hi]
        rcases hdich with hlen | hex
        · exfalso
          rw [he] at hse
          simp only [Bool.or_eq_false_iff, decide_eq_false_iff_not] at hse
          exact hse.1.2 hlen
        · exact hex

theorem graph_invoke_inv (s : InterviewState) (j : TurnJudgments) (m : Nat)
    (hInv : Inv s) (hend : s.should_end = false) (hturn : ¬s.turn_id = 0) :
    Inv (graph_invoke s j m) := by
  obtain ⟨hplan, hcur, hoff, hcontra, hturn1⟩ := hInv
  have hcur2 := hcur hend
  obtain ⟨rp, ri, rb, re, rt⟩ := router_node_frame s j.router
  unfold graph_invoke
  dsimp only
  unfold parallel_analysis_node
  by_cases h1 : route_from_router (router_node s j.router) = "end"
  · rw [if_pos h1]
    obtain ⟨pp, pi, pb, pe, pt⟩ :=
      reporter_node_frame (router_node s j.router) j.reporter
    refine ⟨?_, ?_, ?_, ?_, ?_⟩
    · rw [pp, pi, rp, ri]; exact hplan
    · intro hse; rw [pe] at hse; simp at hse
    · rw [pb, rb]; exact hoff
    · rw [pb, rb]; exact hcontra
    · rw [pt, rt]; exact hturn1
  · rw [if_neg h1]
    by_cases h2 : route_from_router (router_node s j.router) = "analyze"
    · rw [if_pos h2]
      obtain ⟨sp, si, sb, se, st, -⟩ :=
        skeptic_node_frame (router_node s j.router) j.skeptic
      obtain ⟨ep, ei, ese, et, -, eoff, econtra⟩ :=
        empath_node_frame (skeptic_node (router_node s j.router) j.skeptic) j.empath
      have hq := planner_node_inv
        (empath_node (skeptic_node (router_node s j.router) j.skeptic) j.empath) j m
        (by rw [et, st, rt]; exact hturn)
        (by rw [ep, ei, sp, si, rp, ri]; exact hplan)
        (by rw [ep, ei, sp, si, rp, ri]; exact hcur2)
      obtain ⟨qPI, qcur, qoff, qcontra, qt⟩ := hq
      by_cases h3 : (planner_node
          (empath_node (skeptic_node (router_node s j.router) j.skeptic) j.empath)
          j m).should_end = true
      · rw [if_pos ((route_from_planner_end _).mpr h3)]
        obtain ⟨pp, pi, pb, pe, pt⟩ := reporter_node_frame _ j.reporter
        refine ⟨?_, ?_, ?_, ?_, ?_⟩
        · rw [pp, pi]; exact qPI
        · intro hse; rw [pe] at hse; simp at hse
        · rw [pb, qoff, eoff, sb, rb]; exact hoff
        · rw [pb, qcontra, econtra, sb, rb]; exact hcontra
        · rw [pt, qt, et, st, rt]; exact hturn1
      · rw [if_neg (fun hc => h3 ((route_from_planner_end _).mp hc))]
        obtain ⟨vp, vi, vb, vse, vt⟩ := voice_node_frame _ j.voice
        refine ⟨?_, ?_, ?_, ?_, ?_⟩
        · rw [vp, vi]; exact qPI
        · intro hse hnil
          rw [vp] at hnil
          rw [vp, vi]
          exact qcur (by simp at h3; exact h3) hnil
        · rw [vb, qoff, eoff, sb, rb]; exact hoff
        · rw [vb, qcontra, econtra, sb, rb]; exact hcontra
        · rw [vt, qt, et, st, rt]; omega
    · rw [if_neg h2]
      have hq := planner_node_inv (router_node s j.router) j m
        (by rw [rt]; exact hturn)
        (by rw [rp, ri]; exact hplan)
        (by rw [rp, ri]; exact hcur2)
      obtain ⟨qPI, qcur, qoff, qcontra, qt⟩ := hq
      by_cases h3 : (planner_node (router_node s j.router) j m).should_end = true
      · rw [if_pos ((route_from_planner_end _).mpr h3)]
        obtain ⟨pp, pi, pb, pe, pt⟩ := reporter_node_frame _ j.reporter
        refine ⟨?_, ?_, ?_, ?_, ?_⟩
        · rw [pp, pi]; exact qPI
        · intro hse; rw [pe] at hse; simp at hse
        · rw [pb, qoff, rb]; exact hoff
        · rw [pb, qcontra, rb]; exact hcontra
        · rw [pt, qt, rt]; exact hturn1
      · rw [if_neg (fun hc => h3 ((route_from_planner_end _).mp hc))]
        obtain ⟨vp, vi, vb, vse, vt⟩ := voice_node_frame _ j.voice
        refine ⟨?_, ?_, ?_, ?_, ?_⟩
        · rw [vp, vi]; exact qPI
        · intro hse hnil
          rw [vp] at hnil
          rw [vp, vi]
          exact qcur (by simp at h3; exact h3) hnil
        · rw [vb, qoff, rb]; exact hoff
        · rw [vb, qcontra, rb]; exact hcontra
        · rw [vt, qt, rt]; omega

theorem process_message_inv (s : InterviewState) (a b : String)
    (j : TurnJudgments) (m : Nat) (hInv : Inv s) (hend : s.should_end = false) :
    Inv (process_message s a b j m).1 := by
  have hres : Inv (graph_invoke (resetScratch s b) j m) := by
    apply graph_invoke_inv
    · exact ⟨hInv.1, hInv.2.1, hInv.2.2.1, hInv.2.2.2.1, hInv.2.2.2.2⟩
    · exact hend
    · show ¬s.turn_id = 0
      have := hInv.2.2.2.2
      omega
  exact ⟨hres.1, hres.2.1, hres.2.2.1, hres.2.2.2.1, hres.2.2.2.2⟩

theorem first_turn_plan_plan_nil (s : InterviewState) (h : s.interview_plan = []) :
    (first_turn_plan s).interview_plan = [] := by
  unfold first_turn_plan
  simp only [h]

theorem first_turn_plan_plan_cons (s : InterviewState) (t : InterviewTopic)
    (rest : List InterviewTopic) (h : s.interview_plan = t :: rest) :
    (first_turn_plan s).interview_plan =
      { t with status := "in_progress" } :: rest := by
  unfold first_turn_plan
  simp only [h]

theorem graph_invoke_turn0 (s : InterviewState) (j : TurnJudgments) (m : Nat)
    (h0 : s.turn_id = 0) (hend : s.should_end = false) :
    graph_invoke s j m =
      voice_node (first_turn_plan (router_node s j.router)) j.voice := by
  have hrt : (router_node s j.router).turn_id = 0 := by
    rw [(router_node_frame s j.router).2.2.2.2, h0]
  have hroute : route_from_router (router_node s j.router) = "first_turn" := by
    unfold route_from_router
    rw [if_pos hrt]
  unfold graph_invoke
  dsimp only
  rw [hroute]
  rw [if_neg (by decide : ¬("first_turn" = "end"))]
  rw [if_neg (by decide : ¬("first_turn" = "analyze"))]
  have hpl : planner_node (router_node s j.router) j m =
      first_turn_plan (router_node s j.router) := by
    unfold planner_node
    rw [if_pos hrt]
  rw [hpl]
  have hse : (first_turn_plan (router_node s j.router)).should_end = false := by
    rw [(first_turn_plan_frame _).2.2.1, (router_node_frame s j.router).2.2.2.1, hend]
  have hrp : route_from_planner (first_turn_plan (router_node s j.router)) =
      "respond" := by
    unfold route_from_planner
    rw [hse]
    simp
  rw [hrp]
  rw [if_neg (by decide : ¬("respond" = "end"))]

theorem turn0_invoke_inv (s : InterviewState) (j : TurnJudgments) (m : Nat)
    (h0 : s.turn_id = 0) (hend : s.should_end = false)
    (hfresh : ∀ u ∈ s.interview_plan, freshTopic u)
    (hidx : s.current_topic_index = 0)
    (hoff : s.behavioral_context.off_topic_count = 0)
    (hcontra : s.behavioral_context.contradiction_count = none) :
    Inv (graph_invoke s j m) := by
  rw [graph_invoke_turn0 s j m h0 hend]
  obtain ⟨rp, ri, rb, rse, rt⟩ := router_node_frame s j.router
  obtain ⟨fi, fb, fse, ft⟩ := first_turn_plan_frame (router_node s j.router)
  obtain ⟨vp, vi, vb, vse, vt⟩ :=
    voice_node_frame (first_turn_plan (router_node s j.router)) j.voice
  cases hcp : s.interview_plan with
  | nil =>
    have hplan0 : (first_turn_plan (router_node s j.router)).interview_plan = [] :=
      first_turn_plan_plan_nil _ (by rw [rp, hcp])
    refine ⟨?_, ?_, ?_, ?_, ?_⟩
    · rw [vp, hplan0]
      exact ⟨by intro i t h _; simp at h, by intro i t h _; simp at h⟩
    · intro _ hnil
      rw [vp, hplan0] at hnil
      simp at hnil
    · rw [vb, fb, rb]; exact hoff
    · rw [vb, fb, rb]; exact hcontra
    · rw [vt]; omega
  | cons t rest =>
    have hplanc : (first_turn_plan (router_node s j.router)).interview_plan =
        { t with status := "in_progress" } :: rest :=
      first_turn_plan_plan_cons _ t rest (by rw [rp, hcp])
    have hfresh2 : ∀ u ∈ t :: rest, freshTopic u := by
      rw [← hcp]; exact hfresh
    have hPI := planInv_opening t rest hfresh2
    refine ⟨?_, ?_, ?_, ?_, ?_⟩
    · rw [vp, hplanc, vi, fi, ri, hidx]
      exact hPI
    · intro _ _
      refine ⟨{ t with status := "in_progress" }, ?_, rfl⟩
      rw [vp, hplanc, vi, fi, ri, hidx]
      simp
    · rw [vb, fb, rb]; exact hoff
    · rw [vb, fb, rb]; exact hcontra
    · rw [vt]; omega

theorem start_interview_inv (name role grade experience : String)
    (pj : Except String InterviewPlanOutput) (j : TurnJudgments) (m : Nat) :
    Inv (start_interview name role grade experience pj j m).1 := by
  unfold start_interview
  dsimp only
  apply turn0_invoke_inv
  · rfl
  · rfl
  · intro u hu
    exact create_interview_plan_fresh role grade experience pj u hu
  · rfl
  · rfl
  · rfl

/-- Every reachable session state satisfies the inductive invariant. -/
theorem reachable_inv (s : InterviewState) (h : Reachable s) : Inv s := by
  induction h with
  | start name role grade experience pj j m =>
      exact start_interview_inv name role grade experience pj j m
  | step s' a b j m _ hend ih => exact process_message_inv s' a b j m ih hend

/-! ## Turn-counter behaviour of one workflow invocation -/

theorem planner_node_turn_id (s : InterviewState) (j : TurnJudgments) (m : Nat) :
    (planner_node s j m).turn_id = s.turn_id := by
  unfold planner_node
  split
  · exact (first_turn_plan_frame s).2.2.2
  · split
    · exact (quick_plan_frame s j.quick).2.2.2.2
    · cases hj : j.planner with
      | ok r => exact (full_plan_ok_proj s r m).2.2.2
      | error e => exact (full_plan_error_frame s e m).2.2.2.2.1

/-- One workflow invocation on an active state advances the turn
counter by exactly 1 when it ends at the Dialogue Renderer (final
`should_end = false`) and leaves it unchanged when it terminates via
the Report Generator (final `should_end = true`). -/
theorem graph_invoke_turn (s : InterviewState) (j : TurnJudgments) (m : Nat)
    (hend : s.should_end = false) :
    ((graph_invoke s j m).should_end = false →
      (graph_invoke s j m).turn_id = s.turn_id + 1) ∧
    ((graph_invoke s j m).should_end = true →
      (graph_invoke s j m).turn_id = s.turn_id) := by
  obtain ⟨rp, ri, rb, re, rt⟩ := router_node_frame s j.router
  unfold graph_invoke
  dsimp only
  unfold parallel_analysis_node
  by_cases h1 : route_from_router (router_node s j.router) = "end"
  · rw [if_pos h1]
    obtain ⟨-, -, -, pe, pt⟩ := reporter_node_frame (router_node s j.router) j.reporter
    constructor
    · intro hse; rw [pe] at hse; simp at hse
    · intro _; rw [pt, rt]
  · rw [if_neg h1]
    by_cases h2 : route_from_router (router_node s j.router) = "analyze"
    · rw [if_pos h2]
      obtain ⟨-, -, -, -, st, -⟩ :=
        skeptic_node_frame (router_node s j.router) j.skeptic
      obtain ⟨-, -, -, et, -, -, -⟩ :=
        empath_node_frame (skeptic_node (router_node s j.router) j.skeptic) j.empath
      have hpt := planner_node_turn_id
        (empath_node (skeptic_node (router_node s j.router) j.skeptic) j.empath) j m
      by_cases h3 : (planner_node
          (empath_node (skeptic_node (router_node s j.router) j.skeptic) j.empath)
          j m).should_end = true
      · rw [if_pos ((route_from_planner_end _).mpr h3)]
        obtain ⟨-, -, -, pe, pt⟩ := reporter_node_frame _ j.reporter
        constructor
        · intro hse; rw [pe] at hse; simp at hse
        · intro _; rw [pt, hpt, et, st, rt]
      · rw [if_neg (fun hc => h3 ((route_from_planner_end _).mp hc))]
        obtain ⟨-, -, -, vse, vt⟩ := voice_node_frame _ j.voice
        constructor
        · intro _; rw [vt, hpt, et, st, rt]
        · intro hse; rw [vse] at hse; exact absurd hse h3
    · rw [if_neg h2]
      have hpt := planner_node_turn_id (router_node s j.router) j m
      by_cases h3 : (planner_node (router_node s j.router) j m).should_end = true
      · rw [if_pos ((route_from_planner_end _).mpr h3)]
        obtain ⟨-, -, -, pe, pt⟩ := reporter_node_frame _ j.reporter
        constructor
        · intro hse; rw [pe] at hse; simp at hse
        · intro _; rw [pt, hpt, rt]
      · rw [if_neg (fun hc => h3 ((route_from_planner_end _).mp hc))]
        obtain ⟨-, -, -, vse, vt⟩ := voice_node_frame _ j.voice
        constructor
        · intro _; rw [vt, hpt, rt]
        · intro hse; rw [vse] at hse; exact absurd hse h3

theorem process_message_turn (s : InterviewState) (a b : String)
    (j : TurnJudgments) (m : Nat) (hend : s.should_end = false) :
    ((process_message s a b j m).1.should_end = false →
      (process_message s a b j m).1.turn_id = s.turn_id + 1) ∧
    ((process_message s a b j m).1.should_end = true →
      (process_message s a b j m).1.turn_id = s.turn_id) := by
  have h := graph_invoke_turn (resetScratch s b) j m hend
  exact ⟨fun hse => h.1 hse, fun hse => h.2 hse⟩

/-! ## Claim theorems -/

/-- C7: if the Judgment Provider raises an error during a full-mode
Strategic Coordinator turn, the coordinator returns the generic
continue directive, routes on to the renderer, and leaves the Interview
Plan, the current topic index, the should_end flag and the
behavioral_context (hence every topic status, score, questions-asked
counter, the hallucination counter and the protocol) unchanged. -/
theorem claim_C7_full_mode_error (s : InterviewState) (e : String) (m : Nat) :
    (full_plan s (Except.error e) m).planner_directive = "Продолжай интервью" ∧
    (full_plan s (Except.error e) m).interview_plan = s.interview_plan ∧
    (full_plan s (Except.error e) m).current_topic_index = s.current_topic_index ∧
    (full_plan s (Except.error e) m).should_end = s.should_end ∧
    (full_plan s (Except.error e) m).behavioral_context = s.behavioral_context ∧
    (full_plan s (Except.error e) m).next_step = "respond" :=
  ⟨rfl, rfl, rfl, rfl, rfl, rfl⟩

/-- C8: if the Judgment Provider raises an error during intent
classification on a non-opening turn with a non-empty candidate
message, the Intent Classifier fails open to intent `answer` (never
`stop`) and the turn is routed to the evaluator path, so a transient
provider error cannot end the interview. -/
theorem claim_C8_router_fail_open (s : InterviewState) (e : String)
    (h0 : ¬s.turn_id = 0) (hmsg : ¬s.current_user_message = "") :
    (router_node s (Except.error e)).user_intent = "answer" ∧
    (router_node s (Except.error e)).user_intent ≠ "stop" ∧
    (router_node s (Except.error e)).next_step = "analyze" ∧
    route_from_router (router_node s (Except.error e)) = "analyze" := by
  have hcond : ¬(s.turn_id = 0 ∨ s.current_user_message = "") := by
    intro h
    rcases h with h | h
    · exact h0 h
    · exact hmsg h
  have hr : router_node s (Except.error e) =
      { s with user_intent := "answer", next_step := "analyze",
               router_thought :=
                 "Ошибка классификации: " ++ e.take 50 ++ ", fallback на answer" } := by
    unfold router_node
    rw [if_neg hcond]
  rw [hr]
  refine ⟨rfl, by simp, rfl, ?_⟩
  unfold route_from_router
  dsimp only
  rw [if_neg h0]
  simp

/-- C8 witness: a provider error on turn 1 with message "привет" yields
intent `answer` and the evaluator route. -/
theorem claim_C8_witness :
    (router_node { create_initial_state "a" "b" "c" "d" with
        turn_id := 1, current_user_message := "привет" }
      (Except.error "boom")).user_intent = "answer" ∧
    route_from_router (router_node { create_initial_state "a" "b" "c" "d" with
        turn_id := 1, current_user_message := "привет" }
      (Except.error "boom")) = "analyze" := by
  have h := claim_C8_router_fail_open
    { create_initial_state "a" "b" "c" "d" with
      turn_id := 1, current_user_message := "привет" }
    "boom" (by decide) (by decide)
  exact ⟨h.1, h.2.2.2⟩

/-- C9: in every reachable session state the off-topic counter is 0 and
the contradiction counter key is absent (so its `.get(...,0)` read is
0); hence the off-topic and contradiction statistics supplied to the
Report Generator are always zero. -/
theorem claim_C9_counters_stay_zero (s : InterviewState) (h : Reachable s) :
    s.behavioral_context.off_topic_count = 0 ∧
    s.behavioral_context.contradiction_count = none ∧
    s.behavioral_context.contradiction_count.getD 0 = 0 := by
  obtain ⟨-, -, hoff, hcontra, -⟩ := reachable_inv s h
  exact ⟨hoff, hcontra, by rw [hcontra]; rfl⟩

/-- C9 witness: the counters of a concrete reachable session. -/
theorem claim_C9_witness :
    sampleStart.behavioral_context.off_topic_count = 0 ∧
    sampleStart.behavioral_context.contradiction_count = none ∧
    sampleStart.behavioral_context.contradiction_count.getD 0 = 0 :=
  claim_C9_counters_stay_zero sampleStart
    (Reachable.start "Иван" "Python Dev" "Senior" "10 лет опыта" samplePlanJ sampleJ 10)

/-- C10: the session export always carries the one hard-coded
participant name regardless of the session state, in particular
regardless of the candidate name placed in the metadata at session
creation. -/
theorem claim_C10_participant_name :
    (∀ (s : InterviewState),
      (export_session s).participant_name = "Садреддинов Джавид Ханбаба оглы") ∧
    (∀ (s₁ s₂ : InterviewState),
      (export_session s₁).participant_name = (export_session s₂).participant_name) ∧
    (∀ (name role grade experience : String),
      (export_session (create_initial_state name role grade experience)).participant_name
        = "Садреддинов Джавид Ханбаба оглы") :=
  ⟨fun _ => rfl, fun _ _ => rfl, fun _ _ _ _ => rfl⟩

/-- C5: in every reachable session state at most one topic is
in_progress, and the transition target computed by
`find_next_pending_topic` is always the lowest-indexed pending topic
(everything below it is non-pending and the topic found, when in range,
is pending). -/
theorem claim_C5_single_in_progress :
    (∀ (s : InterviewState), Reachable s →
      s.interview_plan.countP (fun t => t.status == "in_progress") ≤ 1) ∧
    (∀ (plan : List InterviewTopic),
      (∀ (i : Nat) (t : InterviewTopic), i < find_next_pending_topic plan →
        plan[i]? = some t → t.status ≠ "pending") ∧
      (∀ (t : InterviewTopic), plan[find_next_pending_topic plan]? = some t →
        t.status = "pending")) := by
  constructor
  · intro s h
    obtain ⟨⟨h1, -⟩, -⟩ := reachable_inv s h
    apply countP_le_one_of_unique _ _ s.current_topic_index
    intro i t hget hp
    exact (h1 i t hget (by simpa using hp)).1
  · intro plan
    exact ⟨fun i t h1 h2 => find_next_pending_topic_before plan i t h1 h2,
           fun t ht => find_next_pending_topic_pending plan t ht⟩

/-- C5 witness: the concrete reachable session after an answer turn has
at most one in_progress topic. -/
theorem claim_C5_witness :
    answerTurn.interview_plan.countP (fun t => t.status == "in_progress") ≤ 1 :=
  claim_C5_single_in_progress.1 answerTurn
    (Reachable.step sampleStart "Вопрос?" "Ответ про Python" sampleJ 10
      (Reachable.start "Иван" "Python Dev" "Senior" "10 лет опыта" samplePlanJ sampleJ 10)
      rfl)

/-- C3 counterexample: a completed workflow invocation that terminates
via the Report Generator (candidate said stop) leaves the turn counter
unchanged at 1 instead of increasing it by exactly 1. -/
theorem claim_C3_counterexample :
    sampleStart.turn_id = 1 ∧
    stopTurn.should_end = true ∧
    stopTurn.turn_id = 1 ∧
    ¬stopTurn.turn_id = sampleStart.turn_id + 1 := by
  refine ⟨rfl, rfl, rfl, by decide⟩

/-- C3 amended: the turn counter (a natural number, hence non-negative)
becomes 1 after the opening invocation, and on an active session each
processed turn increments it by exactly 1 when the invocation ends at
the Dialogue Renderer (final should_end = false) and leaves it
unchanged when the invocation terminates via the Report Generator
(final should_end = true). -/
theorem claim_C3_amended :
    (∀ (name role grade experience : String)
       (pj : Except String InterviewPlanOutput) (j : TurnJudgments) (m : Nat),
      (start_interview name role grade experience pj j m).1.turn_id = 1) ∧
    (∀ (s : InterviewState) (a b : String) (j : TurnJudgments) (m : Nat),
      s.should_end = false →
      ((process_message s a b j m).1.should_end = false →
        (process_message s a b j m).1.turn_id = s.turn_id + 1) ∧
      ((process_message s a b j m).1.should_end = true →
        (process_message s a b j m).1.turn_id = s.turn_id)) := by
  constructor
  · intro name role grade experience pj j m
    unfold start_interview
    dsimp only
    rw [graph_invoke_turn0 _ _ _ rfl rfl]
    obtain ⟨-, -, -, -, vt⟩ := voice_node_frame _ j.voice
    rw [vt, (first_turn_plan_frame _).2.2.2, (router_node_frame _ j.router).2.2.2.2]
  · intro s a b j m hend
    exact process_message_turn s a b j m hend

/-- C3 witness: a concrete renderer-terminated turn increments the
counter from 1 to 2. -/
theorem claim_C3_witness :
    (process_message sampleStart "Вопрос?" "Ответ про Python" sampleJ 10).1.turn_id =
      sampleStart.turn_id + 1 :=
  (claim_C3_amended.2 sampleStart "Вопрос?" "Ответ про Python" sampleJ 10 rfl).1 rfl

/-- C6 counterexample: a reachable full-mode turn on which no pending
topic remains, the provider's next_action is `continue` and the turn
counter is below the configured maximum still ends with
should_end = false, refuting that the absence of a pending topic alone
sets should_end. -/
theorem claim_C6_counterexample :
    sampleStart.interview_plan.countP (fun t => t.status == "pending") = 0 ∧
    sampleStart.turn_id = 1 ∧
    answerTurn.interview_plan.countP (fun t => t.status == "pending") = 0 ∧
    answerTurn.turn_id = 2 ∧
    answerTurn.should_end = false := ⟨rfl, rfl, rfl, rfl, rfl⟩

/-- C6 amended: on a successful full-mode turn should_end is set
exactly when the provider's next_action is finish, or the topic index
computed for the next turn lies at/past the end of the plan (which on a
topic transition means no pending topic remained), or the turn counter
has reached the configured maximum; the turn-limit clause alone is
sufficient. -/
theorem claim_C6_amended (s : InterviewState) (r : PlannerOutput) (m : Nat) :
    ((full_plan s (Except.ok r) m).should_end = true ↔
      (r.next_action = "finish" ∨
       (full_plan s (Except.ok r) m).interview_plan.length ≤
         (full_plan s (Except.ok r) m).current_topic_index ∨
       m ≤ s.turn_id)) ∧
    (m ≤ s.turn_id → (full_plan s (Except.ok r) m).should_end = true) := by
  have hp := full_plan_ok_proj s r m
  constructor
  · rw [hp.2.2.1, hp.1, hp.2.1]
    simp [or_assoc]
  · intro h
    rw [hp.2.2.1]
    simp [h]

/-- C6 witness: with maximum 1 and turn counter 1, the turn limit alone
sets should_end even though the provider says continue. -/
theorem claim_C6_witness :
    (full_plan sampleStart (Except.ok contPlannerJ) 1).should_end = true :=
  (claim_C6_amended sampleStart contPlannerJ 1).2 (by decide)

/-- C1 counterexample: a reachable answer turn judged `галлюцинация`
with provider score 7 propagates hallucination_detected = true and
increments the hallucination counter, but records the per-turn skeptic
score and the topic score as 7, which is not in the 0-1 range. -/
theorem claim_C1_counterexample :
    hallucinationTurn.hallucination_detected = true ∧
    hallucinationTurn.behavioral_context.hallucination_count = 1 ∧
    hallucinationTurn.skeptic_score = some 7 ∧
    hallucinationTurn.interview_plan.map (fun t => t.score) = [some 7] ∧
    ¬(7 ≤ 1) := by
  refine ⟨rfl, rfl, rfl, rfl, ?_⟩
  omega

/-- C1 amended: the Technical Evaluator on an answer turn propagates
hallucination_detected exactly when the judged accuracy is
`галлюцинация` or a fictional term was detected, and records the
provider score unchanged (the 0-1 clamp exists only as a prompt
instruction, not in code). -/
theorem claim_C1_amended (s : InterviewState) (r : SkepticOutput)
    (h : s.user_intent = "answer") :
    (skeptic_node s (Except.ok r)).hallucination_detected =
      (decide (r.accuracy = "галлюцинация") || r.fictional_term_detected) ∧
    (skeptic_node s (Except.ok r)).skeptic_score = some r.score := by
  unfold skeptic_node
  rw [if_neg (by simp [h])]
  refine ⟨?_, rfl⟩
  dsimp only
  simp

/-- C1 witness: the concrete hallucination judgment with score 7. -/
theorem claim_C1_witness :
    (skeptic_node (create_initial_state "a" "b" "c" "d")
        (Except.ok hallucinationSkepticOut)).hallucination_detected =
      (decide (hallucinationSkepticOut.accuracy = "галлюцинация") ||
        hallucinationSkepticOut.fictional_term_detected) ∧
    (skeptic_node (create_initial_state "a" "b" "c" "d")
        (Except.ok hallucinationSkepticOut)).skeptic_score =
      some hallucinationSkepticOut.score :=
  claim_C1_amended (create_initial_state "a" "b" "c" "d") hallucinationSkepticOut rfl

/-- C2 counterexample: a session whose single logged turn the reporter
statistics themselves count as unanswered (zero substantive answers)
and metadata experience "10 years, Staff Engineer", given a provider
judgment recommending `Hire`, produces hiring_recommendation `Hire`:
the lowest-tier rule is not enforced structurally. -/
theorem claim_C2_counterexample :
    count_unanswered_questions offTopicLogState.turns_log = 1 ∧
    offTopicLogState.turns_log.length = 1 ∧
    offTopicLogState.metadata.experience = "10 years, Staff Engineer" ∧
    (reporter_node offTopicLogState (Except.ok hireReporterJ)).final_feedback.map
      (fun f => f.hiring_recommendation) = some "Hire" ∧
    ¬("Hire" = "No Hire") := by
  refine ⟨by decide, rfl, rfl, rfl, by decide⟩

/-- C2 amended: the Report Generator computes the unanswered-questions
statistic (which only feeds the provider prompt) and forwards the
provider's hiring_recommendation verbatim for every judgment, every
turn log and every declared experience; the session still ends. -/
theorem claim_C2_amended (s : InterviewState) (r : ReporterOutput) :
    (reporter_node s (Except.ok r)).final_feedback.map
      (fun f => f.hiring_recommendation) = some r.hiring_recommendation ∧
    (reporter_node s (Except.ok r)).should_end = true :=
  ⟨rfl, rfl⟩

/-- C4: on every successful full-mode Strategic Coordinator turn on a
reachable active session, the current in_progress topic's
questions-asked counter is incremented by 1, never exceeding 2; and
when it reaches 2 a topic transition is forced regardless of the
provider's next_action: the topic is marked completed, every topic
below the new current index is non-pending, and the topic at the new
current index (when one exists) has been marked in_progress. -/
theorem claim_C4_questions_cap (s : InterviewState) (r : PlannerOutput) (m : Nat)
    (t : InterviewTopic)
    (hreach : Reachable s) (hend : s.should_end = false)
    (ht : s.interview_plan[s.current_topic_index]? = some t)
    (hip : t.status = "in_progress") :
    ∃ t', (full_plan s (Except.ok r) m).interview_plan[s.current_topic_index]? =
        some t' ∧
      qaCount t' = qaCount t + 1 ∧
      qaCount t' ≤ 2 ∧
      (qaCount t' = 2 →
        t'.status = "completed" ∧
        (∀ (i : Nat) (u : InterviewTopic),
          i < (full_plan s (Except.ok r) m).current_topic_index →
          (full_plan s (Except.ok r) m).interview_plan[i]? = some u →
          u.status ≠ "pending") ∧
        (∀ (u : InterviewTopic),
          (full_plan s (Except.ok r) m).interview_plan[
            (full_plan s (Except.ok r) m).current_topic_index]? = some u →
          u.status = "in_progress")) := by
  obtain ⟨hplanInv, -, -, -, -⟩ := reachable_inv s hreach
  have hqa : qaCount t ≤ 1 := (hplanInv.1 s.current_topic_index t ht hip).2
  obtain ⟨hlt, -⟩ := List.getElem?_eq_some.mp ht
  have h1 := recordScorePlan_get_eq r s.interview_plan s.current_topic_index t ht
  have h1len := recordScorePlan_length r s.interview_plan s.current_topic_index
  have ht1qa : qaCount { scoreTopic r t with
      questions_asked := some (qaCount t + 1) } = qaCount t + 1 := by
    simp [qaCount]
  have hproj := full_plan_ok_proj s r m
  rw [hproj.1, hproj.2.1]
  unfold fullPlanPR
  dsimp only
  rw [moveToNext_eq _ _ _ h1, ht1qa]
  by_cases htr :
      (decide (r.next_action = "next_topic") || decide (2 ≤ qaCount t + 1)) = true
  · rw [if_pos htr]
    unfold transitionPlan
    rw [h1]
    dsimp only
    set t1 : InterviewTopic :=
      { scoreTopic r t with questions_asked := some (qaCount t + 1) } with ht1
    set plan2 := (recordScorePlan r s.interview_plan s.current_topic_index).set
      s.current_topic_index { t1 with status := "completed" } with hp2
    set nidx := find_next_pending_topic plan2 with hnx
    have hlt1 : s.current_topic_index <
        (recordScorePlan r s.interview_plan s.current_topic_index).length := by
      rw [h1len]; exact hlt
    have h2idx : plan2[s.current_topic_index]? =
        some { t1 with status := "completed" } := by
      rw [hp2]; exact List.getElem?_set_eq_of_lt _ hlt1
    cases hu : plan2[nidx]? with
    | some u =>
      dsimp only
      have hupend : u.status = "pending" := find_next_pending_topic_pending plan2 u hu
      have hne2 : nidx ≠ s.current_topic_index := by
        intro hh
        rw [hh, h2idx] at hu
        simp only [Option.some.injEq] at hu
        rw [← hu] at hupend
        simp at hupend
      obtain ⟨hltn, -⟩ := List.getElem?_eq_some.mp hu
      refine ⟨{ t1 with status := "completed" }, ?_, ht1qa, ?_, ?_⟩
      · rw [List.getElem?_set_ne hne2]
        exact h2idx
      · have hq : qaCount { t1 with status := "completed" } = qaCount t1 := rfl
        have := ht1qa
        omega
      · intro _
        refine ⟨rfl, ?_, ?_⟩
        · intro i u2 hi hget
          rw [List.getElem?_set_ne (by omega : nidx ≠ i)] at hget
          exact find_next_pending_topic_before plan2 i u2 hi hget
        · intro u2 hget
          rw [List.getElem?_set_eq_of_lt _ hltn] at hget
          simp only [Option.some.injEq] at hget
          rw [← hget]
    | none =>
      dsimp only
      refine ⟨{ t1 with status := "completed" }, h2idx, ht1qa, ?_, ?_⟩
      · have hq : qaCount { t1 with status := "completed" } = qaCount t1 := rfl
        have := ht1qa
        omega
      · intro _
        refine ⟨rfl, ?_, ?_⟩
        · intro i u2 hi hget
          exact find_next_pending_topic_before plan2 i u2 hi hget
        · intro u2 hget
          rw [hu] at hget
          simp at hget
  · rw [if_neg htr]
    simp only [Bool.or_eq_true, decide_eq_true_eq, not_or] at htr
    refine ⟨{ scoreTopic r t with questions_asked := some (qaCount t + 1) },
      h1, ht1qa, ?_, ?_⟩
    · have := ht1qa
      omega
    · intro h2
      exfalso
      have := ht1qa
      omega

/-- C4 witness: the second evaluated answer on the single topic takes
its questions-asked counter to 2 and forces the transition although the
provider said continue. -/
theorem claim_C4_witness :
    ∃ t', (full_plan answerTurn (Except.ok contPlannerJ) 10).interview_plan[
        answerTurn.current_topic_index]? = some t' ∧
      qaCount t' = qaCount answerTopic + 1 ∧
      qaCount t' ≤ 2 ∧
      (qaCount t' = 2 →
        t'.status = "completed" ∧
        (∀ (i : Nat) (u : InterviewTopic),
          i < (full_plan answerTurn (Except.ok contPlannerJ) 10).current_topic_index →
          (full_plan answerTurn (Except.ok contPlannerJ) 10).interview_plan[i]? =
            some u →
          u.status ≠ "pending") ∧
        (∀ (u : InterviewTopic),
          (full_plan answerTurn (Except.ok contPlannerJ) 10).interview_plan[
            (full_plan answerTurn (Except.ok contPlannerJ) 10).current_topic_index]? =
            some u →
          u.status = "in_progress")) :=
  claim_C4_questions_cap answerTurn contPlannerJ 10 answerTopic
    (Reachable.step sampleStart "Вопрос?" "Ответ про Python" sampleJ 10
      (Reachable.start "Иван" "Python Dev" "Senior" "10 лет опыта" samplePlanJ sampleJ 10)
      rfl)
    rfl rfl rfl

end Interview
